import Mathlib

/-
Verification development for the glacier-outline data pipeline
(`src/glacier/data/data_cleaning.py` and `src/glacier/data/feature_engineering.py`).

Modelling conventions (shallow embedding):
* A pandas/geopandas table is a `Table`: a `Schema` of column-presence flags,
  an optional coordinate reference system (`crs`), and a list of rows.
* Missing cell values (NaN / NaT / None) are `Option.none`.
* Machine floats are modelled by exact rationals `ℚ`.
* Timestamps are modelled at day resolution as (calendar year, day of year);
  this supports `.dt.year`, `.dt.dayofyear`, ordering and equality, which is
  all the source uses.
* Raw (pre-parse) date cells are `DateCell` (parseable or not); raw elevation
  cells are `NumCell` (numeric or not): `pd.to_datetime(errors="coerce")` and
  `pd.to_numeric(errors="coerce")` send the unparseable cases to missing.
* Geometries are an abstract inductive `Geom` with an empty case; the
  well-known-binary encoding used by `drop_exact_dupes` is a canonical
  injective encoding of the geometry value, so WKB equality is modelled as
  `Geom` equality.  The geometry repair applied by `fix_invalid_geometries`
  (`make_valid`, falling back to `buffer(0)`) is an uninterpreted parameter
  `repair : Geom → Geom`; the geometric union performed by `dissolve` is an
  uninterpreted parameter `unite : List Geom → Geom`.
* Python exceptions are modelled by `Except PipeError`.
* `sort_values` is modelled by a stable insertion sort; the source's default
  quicksort leaves the order of rows with equal sort keys unspecified, and no
  claim depends on tie order.
-/

namespace Glims

/-- A UTC timestamp at day resolution: calendar year and day-of-year (1-366). -/
structure Timestamp where
  year : Int
  doy : Nat
deriving DecidableEq, Repr

/-- Timestamp order, non-strict. -/
def tsLE (a b : Timestamp) : Bool :=
  decide (a.year < b.year ∨ (a.year = b.year ∧ a.doy ≤ b.doy))

/-- Timestamp order, strict. -/
def tsLT (a b : Timestamp) : Bool :=
  decide (a.year < b.year ∨ (a.year = b.year ∧ a.doy < b.doy))

/-- Fractional year, as computed in feature engineering:
`src_date_dt.dt.year + src_date_dt.dt.dayofyear / 365.25`. -/
def fracYear (t : Timestamp) : ℚ :=
  (t.year : ℚ) + (t.doy : ℚ) / (1461 / 4 : ℚ)

/-- Abstract polygon geometry.  `emptyGeom` is the empty geometry; `poly`
carries abstract content distinguishing non-empty geometries from one
another (standing in for actual coordinates). -/
inductive Geom where
  | emptyGeom : Geom
  | poly : List (Int × Int) → Geom
deriving DecidableEq, Repr

/-- A raw date cell before parsing: either parseable to a timestamp, or not. -/
inductive DateCell where
  | parsed : Timestamp → DateCell
  | unparseable : DateCell
deriving DecidableEq, Repr

/-- A raw numeric cell before coercion: either a number, or a non-numeric
value that `pd.to_numeric(errors="coerce")` turns into missing. -/
inductive NumCell where
  | num : ℚ → NumCell
  | nonNumeric : NumCell
deriving DecidableEq, Repr

/-- One row of a GLIMS outline table.  Fields of columns absent from the
table's schema are meaningless and never read by the operations. -/
structure Row where
  glac_id : Option String
  line_type : Option String
  geometry : Option Geom
  src_date : Option DateCell
  src_date_dt : Option Timestamp
  anlys_time : Option DateCell
  area : Option ℚ
  min_elev : Option NumCell
  mean_elev : Option NumCell
  max_elev : Option NumCell
deriving DecidableEq, Repr

/-- Column-presence flags of a table (`col in gdf.columns` checks). -/
structure Schema where
  glac_id : Bool
  line_type : Bool
  geometry : Bool
  src_date : Bool
  src_date_dt : Bool
  anlys_time : Bool
  area : Bool
  min_elev : Bool
  mean_elev : Bool
  max_elev : Bool
deriving DecidableEq, Repr

/-- A GeoDataFrame: schema, optional coordinate reference system, rows. -/
structure Table where
  schema : Schema
  crs : Option Nat
  rows : List Row
deriving DecidableEq, Repr

/-- Errors raised by the pipeline (Python exception kinds). -/
inductive PipeError where
  | valueError : String → PipeError
  | attributeError : PipeError
  | keyError : PipeError
deriving DecidableEq, Repr

/-- Generic keep-first deduplication on a key, with an accumulator of keys
already seen (models `DataFrame.drop_duplicates(subset=...)`). -/
def dedupeKeyAux {α κ : Type} [DecidableEq κ] (key : α → κ) : List α → List κ → List α
  | [], _ => []
  | x :: xs, seen =>
    if key x ∈ seen then dedupeKeyAux key xs seen
    else x :: dedupeKeyAux key xs (key x :: seen)

/-- Keep-first deduplication on a key. -/
def dedupeKey {α κ : Type} [DecidableEq κ] (key : α → κ) (l : List α) : List α :=
  dedupeKeyAux key l []

/-- Stable insertion of an element into a list sorted by `le`. -/
def insertSorted {α : Type} (le : α → α → Bool) (x : α) : List α → List α
  | [] => [x]
  | y :: ys => if le x y then x :: y :: ys else y :: insertSorted le x ys

/-- Insertion sort by `le` (models `sort_values`; see header note on ties). -/
def isort {α : Type} (le : α → α → Bool) : List α → List α
  | [] => []
  | x :: xs => insertSorted le x (isort le xs)

/-- Rational order as a Bool. -/
def qle (a b : ℚ) : Bool := decide (a ≤ b)

/-- Median of a list of rationals (pandas `median` over the non-missing
values of a group): sort, middle element if the length is odd, mean of the
two middle elements if even, missing if the list is empty. -/
def median (xs : List ℚ) : Option ℚ :=
  let s := isort qle xs
  let n := s.length
  if n = 0 then none
  else if n % 2 = 1 then some (s.getD (n / 2) 0)
  else some ((s.getD (n / 2 - 1) 0 + s.getD (n / 2) 0) / 2)

/- ------------------------------------------------------------------ -/
/- data_cleaning.py: individual cleaning steps                         -/
/- ------------------------------------------------------------------ -/

/-- keep_outlines: filter to rows whose `line_type` equals `value`;
no-op if the column is absent. -/
def keep_outlines (value : String) (t : Table) : Table :=
  if t.schema.line_type = false then t
  else { t with rows := t.rows.filter fun r => r.line_type == some value }

/-- Whether a row's geometry cell is present but the empty geometry. -/
def rowGeomEmpty (r : Row) : Bool :=
  match r.geometry with
  | some Geom.emptyGeom => true
  | _ => false

/-- drop_empty_geometries: drop rows with null geometry, then rows with
empty geometry; no-op if the geometry column is absent. -/
def drop_empty_geometries (t : Table) : Table :=
  if t.schema.geometry = false then t
  else { t with rows :=
    (t.rows.filter fun r => r.geometry.isSome).filter fun r => !rowGeomEmpty r }

/-- Result of `pd.to_datetime(cell, errors="coerce")` on a raw date cell. -/
def parseDateCell : Option DateCell → Option Timestamp
  | some (DateCell.parsed ts) => some ts
  | _ => none

/-- In-place normalization of `anlys_time` by `pd.to_datetime(errors="coerce")`:
unparseable cells become missing, parsed cells survive. -/
def anlysNormalize : Option DateCell → Option DateCell
  | some (DateCell.parsed ts) => some (DateCell.parsed ts)
  | _ => none

/-- parse_anlys_time: parse the `anlys_time` column in place (coercing
failures to missing); no-op if the column is absent. -/
def parse_anlys_time (t : Table) : Table :=
  if t.schema.anlys_time = false then t
  else { t with rows := t.rows.map fun r => { r with anlys_time := anlysNormalize r.anlys_time } }

/-- parse_src_date: parse `src_date` into a new column `src_date_dt`
(coercing failures to missing); no-op if `src_date` is absent. -/
def parse_src_date (t : Table) : Table :=
  if t.schema.src_date = false then t
  else { t with
    schema := { t.schema with src_date_dt := true },
    rows := t.rows.map fun r => { r with src_date_dt := parseDateCell r.src_date } }

/-- ensure_crs: if the table has no coordinate reference system, set it to
`epsg`; otherwise pass through unchanged. -/
def ensure_crs (epsg : Nat) (t : Table) : Table :=
  match t.crs with
  | none => { t with crs := some epsg }
  | some _ => t

/-- fix_invalid_geometries: accesses `gdf.geometry` unconditionally, which
raises (AttributeError) when the table has no geometry column — the
`except` branch accesses it again, so the exception escapes.  Otherwise it
repairs each geometry (`make_valid`, falling back to `buffer(0)`, both
modelled by `repair`, applied cell-wise with missing preserved) and then
re-drops empty geometries. -/
def fix_invalid_geometries (repair : Geom → Geom) (t : Table) : Except PipeError Table :=
  if t.schema.geometry = false then Except.error PipeError.attributeError
  else Except.ok (drop_empty_geometries
    { t with rows := t.rows.map fun r => { r with geometry := r.geometry.map repair } })

/-- filter_positive_area: keep rows with non-missing `area > 0`; no-op if
the column is absent. -/
def filter_positive_area (t : Table) : Table :=
  if t.schema.area = false then t
  else { t with rows :=
    (t.rows.filter fun r => r.area.isSome).filter fun r => decide (0 < r.area.getD 0) }

/-- Numeric coercion of one elevation cell: `pd.to_numeric(errors="coerce")`,
then sentinel replacement, then (flag-gated) non-positive replacement. -/
def coerceCell (sentinel : ℚ) (setNonpos : Bool) : Option NumCell → Option NumCell
  | some (NumCell.num q) =>
    if q = sentinel then none
    else if setNonpos && decide (q ≤ 0) then none
    else some (NumCell.num q)
  | _ => none

/-- Numeric value of an elevation cell, if present and numeric. -/
def cellVal : Option NumCell → Option ℚ
  | some (NumCell.num q) => some q
  | _ => none

/-- Whether the order-enforcement rule fires on the three coerced elevation
cells: all three present and not `min ≤ mean ≤ max`. -/
def elevBad (m1 m2 m3 : Option NumCell) : Bool :=
  match cellVal m1, cellVal m2, cellVal m3 with
  | some a, some b, some c => !(qle a b && qle b c)
  | _, _, _ => false

/-- Row-wise action of clean_elevations_soft: coerce each elevation column
present in the schema; if `enforce` is set and all three columns exist,
blank all three when the row has all three present and out of order. -/
def elevRow (sch : Schema) (sentinel : ℚ) (setNonpos enforce : Bool) (r : Row) : Row :=
  let m1 := if sch.min_elev then coerceCell sentinel setNonpos r.min_elev else r.min_elev
  let m2 := if sch.mean_elev then coerceCell sentinel setNonpos r.mean_elev else r.mean_elev
  let m3 := if sch.max_elev then coerceCell sentinel setNonpos r.max_elev else r.max_elev
  let blank := enforce && sch.min_elev && sch.mean_elev && sch.max_elev && elevBad m1 m2 m3
  { r with
    min_elev := if blank then none else m1,
    mean_elev := if blank then none else m2,
    max_elev := if blank then none else m3 }

/-- clean_elevations_soft: no-op when none of the three elevation columns is
present; otherwise apply `elevRow` to every row. -/
def clean_elevations_soft (sentinel : ℚ) (setNonpos enforce : Bool) (t : Table) : Table :=
  if t.schema.min_elev = false ∧ t.schema.mean_elev = false ∧ t.schema.max_elev = false then t
  else { t with rows := t.rows.map (elevRow t.schema sentinel setNonpos enforce) }

/-- cast_categories: marks fixed columns as categorical where present — a
pure representation hint with no effect on values, modelled as the
identity. -/
def cast_categories (t : Table) : Table := t

/-- Deduplication key of drop_exact_dupes: (`glac_id`, `src_date_dt` if that
column exists, WKB encoding of the geometry — modelled as the geometry
value itself, WKB being a canonical injective encoding). -/
def dupeKey (hasDate : Bool) (r : Row) : Option String × Option (Option Timestamp) × Option Geom :=
  (r.glac_id, if hasDate then some r.src_date_dt else none, r.geometry)

/-- drop_exact_dupes: no-op unless both `glac_id` and `geometry` columns are
present; otherwise keep the first occurrence of each `dupeKey`. -/
def drop_exact_dupes (t : Table) : Table :=
  if t.schema.glac_id && t.schema.geometry then
    { t with rows := dedupeKey (dupeKey t.schema.src_date_dt) t.rows }
  else t

/-- clean_glims_outlines: the fixed cleaning sequence.  `reset_index` only
renumbers the positional index, which a `List` carries implicitly. -/
def clean_glims_outlines (repair : Geom → Geom) (t : Table) : Except PipeError Table :=
  let t1 := keep_outlines "glac_bound" t
  let t2 := drop_empty_geometries t1
  let t3 := ensure_crs 4326 t2
  match fix_invalid_geometries repair t3 with
  | Except.error e => Except.error e
  | Except.ok t4 =>
    let t5 := parse_src_date t4
    let t6 := parse_anlys_time t5
    let t7 := clean_elevations_soft (-9999) false false t6
    let t8 := filter_positive_area t7
    let t9 := cast_categories t8
    Except.ok (drop_exact_dupes t9)

/- ------------------------------------------------------------------ -/
/- data_cleaning.py: temporal and prediction views                     -/
/- ------------------------------------------------------------------ -/

/-- One row of the temporal view: one row per (glac_id, src_date_dt) group,
with dissolved geometry and median area. -/
structure TRow where
  glac_id : String
  src_date_dt : Timestamp
  geometry : Geom
  area : Option ℚ
deriving DecidableEq, Repr

/-- Grouping key of a row for the temporal view, when identifier and parsed
date are both present. -/
def rowKeyOpt (r : Row) : Option (String × Timestamp) :=
  match r.glac_id, r.src_date_dt with
  | some g, some d => some (g, d)
  | _, _ => none

/-- Whether a row's parsed date lies in the inclusive window. -/
def inWindow (minD maxD : Timestamp) (r : Row) : Bool :=
  match r.src_date_dt with
  | some d => tsLE minD d && tsLE d maxD
  | none => false

/-- Rows of the table that survive `dropna(subset=["glac_id","src_date_dt"])`
followed by the inclusive `between(min_date, max_date)` filter. -/
def keptRows (minD maxD : Timestamp) (t : Table) : List Row :=
  (t.rows.filter fun r => r.glac_id.isSome && r.src_date_dt.isSome).filter (inWindow minD maxD)

/-- Lexicographic order on grouping keys (groupby sorts its keys). -/
def keyLE (a b : String × Timestamp) : Bool :=
  decide (a.1 < b.1) || (a.1 == b.1 && tsLE a.2 b.2)

/-- The dissolved output row of one (glac_id, src_date_dt) group: union of
the group's geometries, median of the group's areas. -/
def tvRow (unite : List Geom → Geom) (minD maxD : Timestamp) (t : Table)
    (k : String × Timestamp) : TRow :=
  let grp := (keptRows minD maxD t).filter fun r => rowKeyOpt r == some k
  { glac_id := k.1, src_date_dt := k.2,
    geometry := unite (grp.filterMap fun r => r.geometry),
    area := median (grp.filterMap fun r => r.area) }

/-- make_temporal_view: requires `src_date_dt` (explicit ValueError
otherwise); `dropna(subset=["glac_id","src_date_dt"])` requires `glac_id`
(KeyError); `dissolve(by=..., aggfunc=med)` requires the geometry column
(AttributeError) and the `area` column (KeyError).  Then drops rows with
missing identifier or date, filters to the inclusive window, and emits one
dissolved row per (glac_id, src_date_dt) group, keys sorted. -/
def make_temporal_view (unite : List Geom → Geom) (minD maxD : Timestamp)
    (t : Table) : Except PipeError (List TRow) :=
  if t.schema.src_date_dt = false then
    Except.error (PipeError.valueError "src_date_dt missing; call clean_glims_outlines first.")
  else if t.schema.glac_id = false then Except.error PipeError.keyError
  else if t.schema.geometry = false then Except.error PipeError.attributeError
  else if t.schema.area = false then Except.error PipeError.keyError
  else Except.ok
    ((isort keyLE (dedupeKey id ((keptRows minD maxD t).filterMap rowKeyOpt))).map
      (tvRow unite minD maxD t))

/-- Number of distinct observation dates of one identifier in the temporal
view (`groupby("glac_id")["src_date_dt"].nunique()`). -/
def distinctDateCount (tv : List TRow) (g : String) : Nat :=
  (dedupeKey id ((tv.filter fun r => r.glac_id == g).map fun r => r.src_date_dt)).length

/-- make_prediction_view: build the temporal view, keep identifiers whose
distinct observation-date count is at least `k`, return those rows. -/
def make_prediction_view (unite : List Geom → Geom) (k : Nat) (minD maxD : Timestamp)
    (t : Table) : Except PipeError (List TRow) :=
  match make_temporal_view unite minD maxD t with
  | Except.error e => Except.error e
  | Except.ok temporal =>
    let keepIds := (dedupeKey id (temporal.map fun r => r.glac_id)).filter fun g =>
      decide (k ≤ distinctDateCount temporal g)
    Except.ok (temporal.filter fun r => keepIds.contains r.glac_id)

/- ------------------------------------------------------------------ -/
/- feature_engineering.py                                              -/
/- ------------------------------------------------------------------ -/

/-- An input row of `add_glims_history_features` (history or targets):
the three columns it reads, each possibly missing. -/
structure FRow where
  glac_id : Option String
  src_date_dt : Option Timestamp
  area : Option ℚ
deriving DecidableEq, Repr

/-- A history/target row after `dropna(subset=["glac_id","src_date_dt"])`,
with both key fields present. -/
structure HRow where
  gid : String
  date : Timestamp
  area : Option ℚ
deriving DecidableEq, Repr

/-- Totalization performed by the dropna: keep rows with identifier and
parsed date both present. -/
def toH (r : FRow) : Option HRow :=
  match r.glac_id, r.src_date_dt with
  | some g, some d => some { gid := g, date := d, area := r.area }
  | _, _ => none

/-- Sort order of history/target rows: by (glac_id, src_date_dt). -/
def hrowLE (a b : HRow) : Bool :=
  decide (a.gid < b.gid) || (a.gid == b.gid && tsLE a.date b.date)

/-- One output row of the feature table. -/
structure FeatRow where
  glac_id : String
  src_date_dt : Timestamp
  n_past : Nat
  span_years_past : Option ℚ
  area_trend_per_year : Option ℚ
  area_last : Option ℚ
  delta_area_last : Option ℚ
deriving DecidableEq, Repr

/-- Maximum of a list of rationals (used only on non-empty lists). -/
def listMax : List ℚ → ℚ
  | [] => 0
  | x :: xs => xs.foldl max x

/-- Minimum of a list of rationals (used only on non-empty lists). -/
def listMin : List ℚ → ℚ
  | [] => 0
  | x :: xs => xs.foldl min x

/-- Subtraction lifted to possibly-missing values (NaN-propagating). -/
def optSub : Option ℚ → Option ℚ → Option ℚ
  | some x, some y => some (x - y)
  | _, _ => none

/-- Exact ordinary-least-squares slope of y against x over a list of
points, i.e. the degree-1 coefficient `np.polyfit(x, y, 1)[0]` in exact
arithmetic; missing when the x values admit no unique fit. -/
def olsSlope (pts : List (ℚ × ℚ)) : Option ℚ :=
  let n : ℚ := (pts.length : ℚ)
  let sx := (pts.map Prod.fst).sum
  let sy := (pts.map Prod.snd).sum
  let sxy := (pts.map fun p => p.1 * p.2).sum
  let sxx := (pts.map fun p => p.1 * p.1).sum
  let d := n * sxx - sx * sx
  if d = 0 then none else some ((n * sxy - sx * sy) / d)

/-- The feature record of one identifier at one target date, given the
identifier's date-sorted history group: select the strictly-prior rows and
compute count, span, trend, last value and last delta.  `np.polyfit` on
data containing non-finite values yields no finite slope; that case is
modelled as missing (no claim exercises it). -/
def featFor (gid : String) (group : List HRow) (t0 : Timestamp) : FeatRow :=
  let past := group.filter fun r => tsLT r.date t0
  let n := past.length
  if n = 0 then
    { glac_id := gid, src_date_dt := t0, n_past := 0,
      span_years_past := none, area_trend_per_year := none,
      area_last := none, delta_area_last := none }
  else
    let years := past.map fun r => fracYear r.date
    let areas := past.map fun r => r.area
    let span := if 2 ≤ n then listMax years - listMin years else 0
    let aLast := areas.getLastD none
    let delta := if 2 ≤ n then optSub aLast (areas.dropLast.getLastD none) else none
    let finCnt := (areas.filterMap id).length
    let slope :=
      if 2 ≤ n ∧ 2 ≤ finCnt then
        if areas.all fun a => a.isSome then olsSlope (years.zip (areas.filterMap id))
        else none
      else none
    { glac_id := gid, src_date_dt := t0, n_past := n,
      span_years_past := some span, area_trend_per_year := slope,
      area_last := aLast, delta_area_last := delta }

/-- add_glims_history_features: drop history and target rows missing
identifier or date, sort both by (glac_id, src_date_dt), then per history
identifier (in order of first appearance, i.e. sorted) emit one feature
record per target row of that identifier.  Target identifiers absent from
the history contribute nothing. -/
def add_glims_history_features (temporal_all temporal_targets : List FRow) : List FeatRow :=
  let all_df := temporal_all.filterMap toH
  let tgt_df := temporal_targets.filterMap toH
  let all_s := isort hrowLE all_df
  let tgt_s := isort hrowLE tgt_df
  let gids := dedupeKey id (all_s.map fun r => r.gid)
  gids.flatMap fun g =>
    let group := all_s.filter fun r => r.gid == g
    let g_targets := tgt_s.filter fun r => r.gid == g
    g_targets.map fun tr => featFor g group tr.date

/- ------------------------------------------------------------------ -/
/- Proof-structuring definitions                                       -/
/- ------------------------------------------------------------------ -/

/-- The successful body of `fix_invalid_geometries` (repair each geometry,
re-drop empties); split out for proof reuse. -/
def fixBody (repair : Geom → Geom) (t : Table) : Table :=
  drop_empty_geometries
    { t with rows := t.rows.map fun r => { r with geometry := r.geometry.map repair } }

/-- The cleaning steps after geometry repair; split out for proof reuse. -/
def cleanTail (t4 : Table) : Table :=
  drop_exact_dupes (cast_categories (filter_positive_area
    (clean_elevations_soft (-9999) false false (parse_anlys_time (parse_src_date t4)))))

/-- Row-level invariant of cleaned tables, relative to the output schema:
outline-only line type, non-empty repaired geometry, positive area, and
parse/coercion fixed points (used for idempotence of a second pass). -/
def RowInv (repair : Geom → Geom) (sch : Schema) (r : Row) : Prop :=
  (sch.line_type = true → r.line_type = some "glac_bound") ∧
  (∃ g0, r.geometry = some (repair g0) ∧ repair g0 ≠ Geom.emptyGeom) ∧
  (sch.area = true → ∃ a, r.area = some a ∧ 0 < a) ∧
  (sch.src_date = true → r.src_date_dt = parseDateCell r.src_date) ∧
  (sch.anlys_time = true → r.anlys_time = anlysNormalize r.anlys_time) ∧
  (sch.min_elev = true → r.min_elev = coerceCell (-9999) false r.min_elev) ∧
  (sch.mean_elev = true → r.mean_elev = coerceCell (-9999) false r.mean_elev) ∧
  (sch.max_elev = true → r.max_elev = coerceCell (-9999) false r.max_elev)

/-- Equality of all row fields except `src_date_dt`. -/
def NonDtEq (r r0 : Row) : Prop :=
  r.glac_id = r0.glac_id ∧ r.line_type = r0.line_type ∧ r.geometry = r0.geometry ∧
  r.src_date = r0.src_date ∧ r.anlys_time = r0.anlys_time ∧ r.area = r0.area ∧
  r.min_elev = r0.min_elev ∧ r.mean_elev = r0.mean_elev ∧ r.max_elev = r0.max_elev

/-- Equality of all row fields except `anlys_time`. -/
def NonAnlysEq (r r0 : Row) : Prop :=
  r.glac_id = r0.glac_id ∧ r.line_type = r0.line_type ∧ r.geometry = r0.geometry ∧
  r.src_date = r0.src_date ∧ r.src_date_dt = r0.src_date_dt ∧ r.area = r0.area ∧
  r.min_elev = r0.min_elev ∧ r.mean_elev = r0.mean_elev ∧ r.max_elev = r0.max_elev

/-- Equality of all row fields except the three elevation columns. -/
def NonElevEq (r r0 : Row) : Prop :=
  r.glac_id = r0.glac_id ∧ r.line_type = r0.line_type ∧ r.geometry = r0.geometry ∧
  r.src_date = r0.src_date ∧ r.src_date_dt = r0.src_date_dt ∧ r.anlys_time = r0.anlys_time ∧
  r.area = r0.area

/-- Table-level invariant of cleaned tables. -/
def CleanInv (repair : Geom → Geom) (out : Table) : Prop :=
  out.schema.geometry = true ∧
  (out.schema.src_date = true → out.schema.src_date_dt = true) ∧
  out.crs.isSome = true ∧
  (∀ r ∈ out.rows, RowInv repair out.schema r) ∧
  (out.schema.glac_id = true → (out.rows.map (dupeKey out.schema.src_date_dt)).Nodup)

/- ------------------------------------------------------------------ -/
/- Concrete instances used to exercise the definitions                 -/
/- ------------------------------------------------------------------ -/

/-- A schema with every modelled column present. -/
def allColsSchema : Schema :=
  { glac_id := true, line_type := true, geometry := true, src_date := true,
    src_date_dt := true, anlys_time := true, area := true,
    min_elev := true, mean_elev := true, max_elev := true }

/-- A row that is a fixed point of the cleaning pipeline. -/
def cleanFixRow : Row :=
  { glac_id := some "A", line_type := some "glac_bound",
    geometry := some (Geom.poly [(0, 0)]),
    src_date := some (DateCell.parsed ⟨2000, 5⟩), src_date_dt := some ⟨2000, 5⟩,
    anlys_time := some (DateCell.parsed ⟨2001, 7⟩), area := some 2,
    min_elev := none, mean_elev := none, max_elev := none }

/-- A table that is a fixed point of the cleaning pipeline. -/
def cleanFixTable : Table :=
  { schema := allColsSchema, crs := some 4326, rows := [cleanFixRow] }

/-- A raw input row with several defects fixed by cleaning. -/
def rawRowGood : Row :=
  { glac_id := some "B", line_type := some "glac_bound",
    geometry := some (Geom.poly [(1, 2)]),
    src_date := some (DateCell.parsed ⟨1999, 10⟩), src_date_dt := none,
    anlys_time := some DateCell.unparseable, area := some 5,
    min_elev := some (NumCell.num (-9999)), mean_elev := some (NumCell.num 100),
    max_elev := some NumCell.nonNumeric }

/-- A raw input table: one good row plus a non-outline row, an
empty-geometry row, a non-positive-area row, and an exact duplicate. -/
def rawTable : Table :=
  { schema := allColsSchema, crs := none,
    rows := [rawRowGood,
      { rawRowGood with line_type := some "centerline" },
      { rawRowGood with geometry := some Geom.emptyGeom },
      { rawRowGood with area := some (-3) },
      { rawRowGood with min_elev := some (NumCell.num 50) }] }

/-- The surviving row of `rawTable` after cleaning. -/
def rawRowCleaned : Row :=
  { glac_id := some "B", line_type := some "glac_bound",
    geometry := some (Geom.poly [(1, 2)]),
    src_date := some (DateCell.parsed ⟨1999, 10⟩), src_date_dt := some ⟨1999, 10⟩,
    anlys_time := none, area := some 5,
    min_elev := none, mean_elev := some (NumCell.num 100), max_elev := none }

/-- The cleaned output of `rawTable`. -/
def rawTableCleaned : Table :=
  { schema := allColsSchema, crs := some 4326, rows := [rawRowCleaned] }

/-- A one-row table over an arbitrary schema, for exercising the
missing-column behaviour of individual steps. -/
def noColTable (sch : Schema) : Table :=
  { schema := sch, crs := none, rows := [rawRowGood] }

/-- A table with an exact duplicate (same identifier, date and geometry,
different elevation) and a row with a different identifier. -/
def dupTable : Table :=
  { schema := allColsSchema, crs := some 4326,
    rows := [rawRowGood,
      { rawRowGood with mean_elev := none },
      { rawRowGood with glac_id := some "C" }] }

/-- A row whose three elevations are present but out of order. -/
def elevRowBad : Row :=
  { rawRowGood with
    min_elev := some (NumCell.num 20),
    mean_elev := some (NumCell.num 10), max_elev := some (NumCell.num 30) }

/-- A row with a non-numeric minimum elevation (missing after coercion). -/
def elevRowMissing : Row :=
  { rawRowGood with
    min_elev := some NumCell.nonNumeric,
    mean_elev := some (NumCell.num 5), max_elev := some (NumCell.num 20) }

/-- A table exercising the elevation order-enforcement rule. -/
def elevTable : Table :=
  { schema := allColsSchema, crs := some 4326, rows := [elevRowBad, elevRowMissing] }

/-- A cleaned-style row keyed ("G", 2000-day-1) with area 10. -/
def c3r1 : Row :=
  { rawRowCleaned with glac_id := some "G", src_date_dt := some ⟨2000, 1⟩, area := some 10 }

/-- Same (identifier, date) pair as `c3r1`, area 20 (median partner). -/
def c3r2 : Row :=
  { rawRowCleaned with glac_id := some "G", src_date_dt := some ⟨2000, 1⟩, area := some 20 }

/-- A second pair for the same identifier. -/
def c3r3 : Row :=
  { rawRowCleaned with glac_id := some "G", src_date_dt := some ⟨2001, 1⟩, area := some 7 }

/-- A row with a missing identifier (dropped by the temporal view). -/
def c3r4 : Row :=
  { rawRowCleaned with glac_id := none, src_date_dt := some ⟨2000, 1⟩, area := some 9 }

/-- A row dated outside the observation window. -/
def c3r5 : Row :=
  { rawRowCleaned with glac_id := some "G", src_date_dt := some ⟨1800, 1⟩, area := some 9 }

/-- A table exercising the temporal-view grouping law. -/
def c3Table : Table :=
  { schema := allColsSchema, crs := some 4326, rows := [c3r1, c3r2, c3r3, c3r4, c3r5] }

/-- A table exercising prediction-view membership: identifier "G" has two
distinct dates, identifier "H" has three. -/
def c5Table : Table :=
  { schema := allColsSchema, crs := some 4326,
    rows := [c3r1, c3r3,
      { rawRowCleaned with glac_id := some "H", src_date_dt := some ⟨2000, 1⟩, area := some 1 },
      { rawRowCleaned with glac_id := some "H", src_date_dt := some ⟨2001, 1⟩, area := some 2 },
      { rawRowCleaned with glac_id := some "H", src_date_dt := some ⟨2002, 1⟩, area := some 3 }] }

/-- The spec's feature scenario history: identifier "G1" with areas
[100, 90, 95] at 2000-01-01, 2005-01-01, 2010-01-01 (fractional-year gaps
exactly 5 and 10). -/
def c1Hist : List FRow :=
  [{ glac_id := some "G1", src_date_dt := some ⟨2000, 1⟩, area := some 100 },
   { glac_id := some "G1", src_date_dt := some ⟨2005, 1⟩, area := some 90 },
   { glac_id := some "G1", src_date_dt := some ⟨2010, 1⟩, area := some 95 }]

/-- The spec's feature scenario target: identifier "G1" in 2012. -/
def c1Tgt : List FRow :=
  [{ glac_id := some "G1", src_date_dt := some ⟨2012, 1⟩, area := none }]

/-- History for the no-past / absent-identifier scenarios: "G2" observed
in 2005 and 2008; no "G3" at all. -/
def c4Hist : List FRow :=
  [{ glac_id := some "G2", src_date_dt := some ⟨2005, 1⟩, area := some 50 },
   { glac_id := some "G2", src_date_dt := some ⟨2008, 1⟩, area := some 40 }]

/-- Targets: "G2" at a date earlier than all its history, and "G3" which
is absent from the history. -/
def c4Tgt : List FRow :=
  [{ glac_id := some "G2", src_date_dt := some ⟨2000, 1⟩, area := none },
   { glac_id := some "G3", src_date_dt := some ⟨2005, 1⟩, area := none }]

/- ------------------------------------------------------------------ -/
/- Generic lemmas about the list utilities                             -/
/- ------------------------------------------------------------------ -/

theorem dedupeKeyAux_sublist {α κ : Type} [DecidableEq κ] (key : α → κ) :
    ∀ (l : List α) (seen : List κ), (dedupeKeyAux key l seen).Sublist l := by
  intro l
  induction l with
  | nil => intro seen; simp [dedupeKeyAux]
  | cons x xs ih =>
    intro seen
    by_cases h : key x ∈ seen
    · simpa [dedupeKeyAux, h] using (ih seen).cons x
    · simpa [dedupeKeyAux, h] using (ih (key x :: seen)).cons₂ x

theorem dedupeKeyAux_subset {α κ : Type} [DecidableEq κ] (key : α → κ)
    (l : List α) (seen : List κ) {x : α} (hx : x ∈ dedupeKeyAux key l seen) : x ∈ l :=
  (dedupeKeyAux_sublist key l seen).mem hx

theorem dedupeKeyAux_key_nodup {α κ : Type} [DecidableEq κ] (key : α → κ) :
    ∀ (l : List α) (seen : List κ),
      ((dedupeKeyAux key l seen).map key).Nodup ∧
      ∀ x ∈ dedupeKeyAux key l seen, key x ∉ seen := by
  intro l
  induction l with
  | nil => intro seen; simp [dedupeKeyAux]
  | cons x xs ih =>
    intro seen
    by_cases h : key x ∈ seen
    · simp only [dedupeKeyAux, h, if_true]
      exact ih seen
    · have h1 := (ih (key x :: seen)).1
      have h2 := (ih (key x :: seen)).2
      constructor
      · simp only [dedupeKeyAux, h, if_false, List.map_cons, List.nodup_cons]
        refine ⟨?_, h1⟩
        intro hmem
        rcases List.mem_map.1 hmem with ⟨y, hy, hkey⟩
        exact (h2 y hy) (by simp [hkey])
      · intro y hy
        simp only [dedupeKeyAux, h, if_false, List.mem_cons] at hy
        rcases hy with rfl | hy
        · exact h
        · intro hc; exact (h2 y hy) (by simp [hc])

theorem dedupeKeyAux_covers {α κ : Type} [DecidableEq κ] (key : α → κ) :
    ∀ (l : List α) (seen : List κ) (y : α), y ∈ l →
      key y ∈ seen ∨ ∃ x ∈ dedupeKeyAux key l seen, key x = key y := by
  intro l
  induction l with
  | nil => intro seen y hy; cases hy
  | cons x xs ih =>
    intro seen y hy
    rcases List.mem_cons.1 hy with rfl | hy
    · by_cases h : key y ∈ seen
      · exact Or.inl h
      · exact Or.inr ⟨y, by simp [dedupeKeyAux, h], rfl⟩
    · by_cases h : key x ∈ seen
      · rcases ih seen y hy with hs | ⟨z, hz, hk⟩
        · exact Or.inl hs
        · exact Or.inr ⟨z, by simp [dedupeKeyAux, h, hz], hk⟩
      · rcases ih (key x :: seen) y hy with hs | ⟨z, hz, hk⟩
        · rcases List.mem_cons.1 hs with he | hs
          · exact Or.inr ⟨x, by simp [dedupeKeyAux, h], he.symm⟩
          · exact Or.inl hs
        · exact Or.inr ⟨z, by simp [dedupeKeyAux, h, hz], hk⟩

theorem dedupeKeyAux_eq_self {α κ : Type} [DecidableEq κ] (key : α → κ) :
    ∀ (l : List α) (seen : List κ), (l.map key).Nodup →
      (∀ x ∈ l, key x ∉ seen) → dedupeKeyAux key l seen = l := by
  intro l
  induction l with
  | nil => intro seen _ _; rfl
  | cons x xs ih =>
    intro seen hnd hfresh
    have hx : key x ∉ seen := hfresh x (List.mem_cons_self x xs)
    simp only [List.map_cons, List.nodup_cons] at hnd
    have : dedupeKeyAux key xs (key x :: seen) = xs := by
      refine ih (key x :: seen) hnd.2 ?_
      intro y hy
      simp only [List.mem_cons]
      rintro (he | hs)
      · exact hnd.1 (he ▸ List.mem_map_of_mem key hy)
      · exact hfresh y (List.mem_cons_of_mem x hy) hs
    simp [dedupeKeyAux, hx, this]

theorem dedupeKeyAux_mem_of_first {α κ : Type} [DecidableEq κ] (key : α → κ) :
    ∀ (l1 : List α) (r : α) (l2 : List α) (seen : List κ), key r ∉ seen →
      (∀ x ∈ l1, key x ≠ key r) → r ∈ dedupeKeyAux key (l1 ++ r :: l2) seen := by
  intro l1
  induction l1 with
  | nil =>
    intro r l2 seen hseen _
    simp [dedupeKeyAux, hseen]
  | cons x l1 ih =>
    intro r l2 seen hseen hfirst
    have hx : key x ≠ key r := hfirst x (List.mem_cons_self x l1)
    have hrest : ∀ y ∈ l1, key y ≠ key r := fun y hy => hfirst y (List.mem_cons_of_mem x hy)
    by_cases h : key x ∈ seen
    · simpa [dedupeKeyAux, h] using ih r l2 seen hseen hrest
    · have hseen2 : key r ∉ (key x :: seen) := by
        simp only [List.mem_cons]
        rintro (he | hs)
        · exact hx he.symm
        · exact hseen hs
      simp only [List.cons_append, dedupeKeyAux, h, if_false, List.mem_cons]
      exact Or.inr (ih r l2 (key x :: seen) hseen2 hrest)

theorem dedupeKeyAux_first_of_mem {α κ : Type} [DecidableEq κ] (key : α → κ) :
    ∀ (l : List α) (seen : List κ) (r : α), r ∈ dedupeKeyAux key l seen →
      key r ∉ seen ∧ ∃ l1 l2, l = l1 ++ r :: l2 ∧ ∀ x ∈ l1, key x ≠ key r := by
  intro l
  induction l with
  | nil => intro seen r hr; cases hr
  | cons x xs ih =>
    intro seen r hr
    by_cases h : key x ∈ seen
    · simp only [dedupeKeyAux, h, if_true] at hr
      rcases ih seen r hr with ⟨hseen, l1, l2, heq, hfirst⟩
      refine ⟨hseen, x :: l1, l2, by simp [heq], ?_⟩
      intro y hy
      rcases List.mem_cons.1 hy with rfl | hy
      · intro hc; exact hseen (hc ▸ h)
      · exact hfirst y hy
    · simp only [dedupeKeyAux, h, if_false, List.mem_cons] at hr
      rcases hr with rfl | hr
      · exact ⟨h, [], xs, rfl, by simp⟩
      · rcases ih (key x :: seen) r hr with ⟨hseen, l1, l2, heq, hfirst⟩
        have hxr : key x ≠ key r := by
          intro hc
          exact hseen (by simp [hc])
        refine ⟨fun hc => hseen (List.mem_cons_of_mem _ hc), x :: l1, l2, by simp [heq], ?_⟩
        intro y hy
        rcases List.mem_cons.1 hy with rfl | hy
        · exact hxr
        · exact hfirst y hy

theorem dedupeKey_sublist {α κ : Type} [DecidableEq κ] (key : α → κ) (l : List α) :
    (dedupeKey key l).Sublist l :=
  dedupeKeyAux_sublist key l []

theorem dedupeKey_key_nodup {α κ : Type} [DecidableEq κ] (key : α → κ) (l : List α) :
    ((dedupeKey key l).map key).Nodup :=
  (dedupeKeyAux_key_nodup key l []).1

theorem mem_map_key_dedupeKey {α κ : Type} [DecidableEq κ] (key : α → κ) (l : List α) (k : κ) :
    k ∈ (dedupeKey key l).map key ↔ k ∈ l.map key := by
  constructor
  · intro hk
    rcases List.mem_map.1 hk with ⟨x, hx, rfl⟩
    exact List.mem_map_of_mem key (dedupeKeyAux_subset key l [] hx)
  · intro hk
    rcases List.mem_map.1 hk with ⟨y, hy, rfl⟩
    rcases dedupeKeyAux_covers key l [] y hy with hs | ⟨x, hx, hkx⟩
    · cases hs
    · exact hkx ▸ List.mem_map_of_mem key hx

theorem mem_dedupeKey_id {κ : Type} [DecidableEq κ] (l : List κ) (k : κ) :
    k ∈ dedupeKey id l ↔ k ∈ l := by
  have := mem_map_key_dedupeKey id l k
  simpa using this

theorem nodup_dedupeKey_id {κ : Type} [DecidableEq κ] (l : List κ) :
    (dedupeKey id l).Nodup := by
  have := dedupeKey_key_nodup id l
  simpa using this

theorem insertSorted_perm {α : Type} (le : α → α → Bool) (x : α) :
    ∀ l : List α, (insertSorted le x l).Perm (x :: l) := by
  intro l
  induction l with
  | nil => simp [insertSorted]
  | cons y ys ih =>
    by_cases h : le x y
    · simp [insertSorted, h]
    · simp only [insertSorted, h, if_false]
      exact (ih.cons y).trans (List.Perm.swap x y ys)

theorem isort_perm {α : Type} (le : α → α → Bool) :
    ∀ l : List α, (isort le l).Perm l := by
  intro l
  induction l with
  | nil => simp [isort]
  | cons x xs ih =>
    exact (insertSorted_perm le x (isort le xs)).trans (ih.cons x)

theorem mem_isort {α : Type} (le : α → α → Bool) (l : List α) (x : α) :
    x ∈ isort le l ↔ x ∈ l :=
  (isort_perm le l).mem_iff

theorem map_eq_self_of {α : Type} (f : α → α) :
    ∀ l : List α, (∀ a ∈ l, f a = a) → l.map f = l := by
  intro l
  induction l with
  | nil => intro _; rfl
  | cons x xs ih =>
    intro h
    simp only [List.map_cons]
    rw [h x (List.mem_cons_self x xs), ih fun a ha => h a (List.mem_cons_of_mem x ha)]

theorem filter_of_map {α β : Type} (f : α → β) (p : β → Bool) :
    ∀ l : List α, (l.map f).filter p = (l.filter fun a => p (f a)).map f := by
  intro l
  induction l with
  | nil => rfl
  | cons x xs ih =>
    by_cases h : p (f x)
    · simp [List.filter_cons, h, ih]
    · simp [List.filter_cons, h, ih]

theorem filter_flatMap {α β : Type} (l : List α) (f : α → List β) (p : β → Bool) :
    (l.flatMap f).filter p = l.flatMap fun a => (f a).filter p := by
  induction l with
  | nil => rfl
  | cons x xs ih => simp [List.flatMap_cons, List.filter_append, ih]

theorem flatMap_single {α β : Type} :
    ∀ (l : List α) (f : α → List β) (g : α), l.Nodup → g ∈ l →
      (∀ x ∈ l, x ≠ g → f x = []) → l.flatMap f = f g := by
  intro l
  induction l with
  | nil => intro f g _ hg; cases hg
  | cons x xs ih =>
    intro f g hnd hg hnil
    simp only [List.nodup_cons] at hnd
    rcases List.mem_cons.1 hg with rfl | hg
    · have : ∀ y ∈ xs, f y = [] := by
        intro y hy
        refine hnil y (List.mem_cons_of_mem _ hy) ?_
        intro hc; exact hnd.1 (hc ▸ hy)
      have hflat : xs.flatMap f = [] := by
        apply List.flatMap_eq_nil_iff.2
        intro y hy; exact this y hy
      simp [List.flatMap_cons, hflat]
    · have hx : f x = [] := hnil x (List.mem_cons_self x xs) (by intro hc; exact hnd.1 (hc ▸ hg))
      simp only [List.flatMap_cons, hx, List.nil_append]
      exact ih f g hnd.2 hg fun y hy hyg => hnil y (List.mem_cons_of_mem x hy) hyg

/- ------------------------------------------------------------------ -/
/- Step-level lemmas                                                   -/
/- ------------------------------------------------------------------ -/

theorem keep_outlines_schema (v : String) (t : Table) :
    (keep_outlines v t).schema = t.schema := by
  unfold keep_outlines; split <;> rfl

theorem keep_outlines_crs (v : String) (t : Table) :
    (keep_outlines v t).crs = t.crs := by
  unfold keep_outlines; split <;> rfl

theorem drop_empty_geometries_schema (t : Table) :
    (drop_empty_geometries t).schema = t.schema := by
  unfold drop_empty_geometries; split <;> rfl

theorem drop_empty_geometries_crs (t : Table) :
    (drop_empty_geometries t).crs = t.crs := by
  unfold drop_empty_geometries; split <;> rfl

theorem ensure_crs_schema (e : Nat) (t : Table) :
    (ensure_crs e t).schema = t.schema := by
  unfold ensure_crs; split <;> rfl

theorem ensure_crs_isSome (e : Nat) (t : Table) :
    ((ensure_crs e t).crs).isSome = true := by
  unfold ensure_crs
  split
  · rfl
  · next x h => simp [h]

theorem fixBody_schema (repair : Geom → Geom) (t : Table) :
    (fixBody repair t).schema = t.schema := by
  unfold fixBody
  rw [drop_empty_geometries_schema]

theorem fixBody_crs (repair : Geom → Geom) (t : Table) :
    (fixBody repair t).crs = t.crs := by
  unfold fixBody
  rw [drop_empty_geometries_crs]

theorem parse_src_date_schema_proj (t : Table) :
    (parse_src_date t).schema.glac_id = t.schema.glac_id ∧
    (parse_src_date t).schema.line_type = t.schema.line_type ∧
    (parse_src_date t).schema.geometry = t.schema.geometry ∧
    (parse_src_date t).schema.src_date = t.schema.src_date ∧
    (parse_src_date t).schema.anlys_time = t.schema.anlys_time ∧
    (parse_src_date t).schema.area = t.schema.area ∧
    (parse_src_date t).schema.min_elev = t.schema.min_elev ∧
    (parse_src_date t).schema.mean_elev = t.schema.mean_elev ∧
    (parse_src_date t).schema.max_elev = t.schema.max_elev := by
  unfold parse_src_date; split <;> simp

theorem parse_src_date_schema_dt (t : Table) :
    (parse_src_date t).schema.src_date_dt = (t.schema.src_date || t.schema.src_date_dt) := by
  unfold parse_src_date
  split
  · next h => simp [h]
  · next h => simp [Bool.of_not_eq_false h]

theorem parse_src_date_crs (t : Table) :
    (parse_src_date t).crs = t.crs := by
  unfold parse_src_date; split <;> rfl

theorem parse_anlys_time_schema (t : Table) :
    (parse_anlys_time t).schema = t.schema := by
  unfold parse_anlys_time; split <;> rfl

theorem parse_anlys_time_crs (t : Table) :
    (parse_anlys_time t).crs = t.crs := by
  unfold parse_anlys_time; split <;> rfl

theorem clean_elevations_soft_schema (s : ℚ) (np eo : Bool) (t : Table) :
    (clean_elevations_soft s np eo t).schema = t.schema := by
  unfold clean_elevations_soft; split <;> rfl

theorem clean_elevations_soft_crs (s : ℚ) (np eo : Bool) (t : Table) :
    (clean_elevations_soft s np eo t).crs = t.crs := by
  unfold clean_elevations_soft; split <;> rfl

theorem filter_positive_area_schema (t : Table) :
    (filter_positive_area t).schema = t.schema := by
  unfold filter_positive_area; split <;> rfl

theorem filter_positive_area_crs (t : Table) :
    (filter_positive_area t).crs = t.crs := by
  unfold filter_positive_area; split <;> rfl

theorem drop_exact_dupes_schema (t : Table) :
    (drop_exact_dupes t).schema = t.schema := by
  unfold drop_exact_dupes; split <;> rfl

theorem drop_exact_dupes_crs (t : Table) :
    (drop_exact_dupes t).crs = t.crs := by
  unfold drop_exact_dupes; split <;> rfl

theorem cleanTail_schema_proj (t : Table) :
    (cleanTail t).schema.glac_id = t.schema.glac_id ∧
    (cleanTail t).schema.line_type = t.schema.line_type ∧
    (cleanTail t).schema.geometry = t.schema.geometry ∧
    (cleanTail t).schema.src_date = t.schema.src_date ∧
    (cleanTail t).schema.anlys_time = t.schema.anlys_time ∧
    (cleanTail t).schema.area = t.schema.area ∧
    (cleanTail t).schema.min_elev = t.schema.min_elev ∧
    (cleanTail t).schema.mean_elev = t.schema.mean_elev ∧
    (cleanTail t).schema.max_elev = t.schema.max_elev ∧
    (cleanTail t).schema.src_date_dt = (t.schema.src_date || t.schema.src_date_dt) := by
  unfold cleanTail cast_categories
  rw [drop_exact_dupes_schema, filter_positive_area_schema, clean_elevations_soft_schema,
    parse_anlys_time_schema]
  exact ⟨(parse_src_date_schema_proj t).1, (parse_src_date_schema_proj t).2.1,
    (parse_src_date_schema_proj t).2.2.1, (parse_src_date_schema_proj t).2.2.2.1,
    (parse_src_date_schema_proj t).2.2.2.2.1, (parse_src_date_schema_proj t).2.2.2.2.2.1,
    (parse_src_date_schema_proj t).2.2.2.2.2.2.1, (parse_src_date_schema_proj t).2.2.2.2.2.2.2.1,
    (parse_src_date_schema_proj t).2.2.2.2.2.2.2.2, parse_src_date_schema_dt t⟩

theorem cleanTail_crs (t : Table) : (cleanTail t).crs = t.crs := by
  unfold cleanTail cast_categories
  rw [drop_exact_dupes_crs, filter_positive_area_crs, clean_elevations_soft_crs,
    parse_anlys_time_crs, parse_src_date_crs]

theorem fix_invalid_geometries_eq (repair : Geom → Geom) (t : Table) :
    fix_invalid_geometries repair t =
      if t.schema.geometry = false then Except.error PipeError.attributeError
      else Except.ok (fixBody repair t) := rfl

theorem clean_glims_outlines_eq (repair : Geom → Geom) (t : Table) :
    clean_glims_outlines repair t =
      if t.schema.geometry = false then Except.error PipeError.attributeError
      else Except.ok (cleanTail (fixBody repair
        (ensure_crs 4326 (drop_empty_geometries (keep_outlines "glac_bound" t))))) := by
  simp only [clean_glims_outlines, fix_invalid_geometries_eq, ensure_crs_schema,
    drop_empty_geometries_schema, keep_outlines_schema]
  by_cases h : t.schema.geometry = false
  · rw [if_pos h, if_pos h]
  · rw [if_neg h, if_neg h]
    rfl

theorem coerceCell_idem (s : ℚ) (np : Bool) (c : Option NumCell) :
    coerceCell s np (coerceCell s np c) = coerceCell s np c := by
  match c with
  | none => rfl
  | some NumCell.nonNumeric => rfl
  | some (NumCell.num q) =>
    by_cases h1 : q = s
    · simp [coerceCell, h1]
    · by_cases h2 : (np && decide (q ≤ 0)) = true
      · simp [coerceCell, h1, h2]
      · simp [coerceCell, h1, h2]

theorem anlysNormalize_idem (c : Option DateCell) :
    anlysNormalize (anlysNormalize c) = anlysNormalize c := by
  match c with
  | none => rfl
  | some DateCell.unparseable => rfl
  | some (DateCell.parsed ts) => rfl

theorem ensure_crs_rows (e : Nat) (t : Table) : (ensure_crs e t).rows = t.rows := by
  unfold ensure_crs; split <;> rfl

theorem keep_outlines_mem (v : String) (t : Table) (r : Row)
    (hr : r ∈ (keep_outlines v t).rows) :
    r ∈ t.rows ∧ (t.schema.line_type = true → r.line_type = some v) := by
  unfold keep_outlines at hr
  split at hr
  · next h =>
    refine ⟨hr, ?_⟩
    intro hc; rw [hc] at h; cases h
  · next h =>
    simp only [List.mem_filter] at hr
    refine ⟨hr.1, fun _ => ?_⟩
    have := hr.2
    simpa using this

theorem drop_empty_geometries_mem (t : Table) (r : Row)
    (hr : r ∈ (drop_empty_geometries t).rows) :
    r ∈ t.rows ∧ (t.schema.geometry = true → ∃ g, r.geometry = some g ∧ g ≠ Geom.emptyGeom) := by
  unfold drop_empty_geometries at hr
  split at hr
  · next h =>
    refine ⟨hr, ?_⟩
    intro hc; rw [hc] at h; cases h
  · next h =>
    simp only [List.mem_filter] at hr
    refine ⟨hr.1.1, fun _ => ?_⟩
    have hsome := hr.1.2
    have hne := hr.2
    match hg : r.geometry with
    | none => rw [hg] at hsome; cases hsome
    | some g =>
      refine ⟨g, rfl, ?_⟩
      intro hc
      rw [hc] at hg
      unfold rowGeomEmpty at hne
      rw [hg] at hne
      simp at hne

theorem parse_src_date_mem (t : Table) (r : Row) (hr : r ∈ (parse_src_date t).rows) :
    ∃ r0 ∈ t.rows, NonDtEq r r0 ∧
      (t.schema.src_date = true → r.src_date_dt = parseDateCell r.src_date) := by
  unfold parse_src_date at hr
  split at hr
  · next h =>
    refine ⟨r, hr, ⟨rfl, rfl, rfl, rfl, rfl, rfl, rfl, rfl, rfl⟩, ?_⟩
    intro hc; rw [hc] at h; cases h
  · next h =>
    rcases List.mem_map.1 hr with ⟨r0, hr0, rfl⟩
    exact ⟨r0, hr0, ⟨rfl, rfl, rfl, rfl, rfl, rfl, rfl, rfl, rfl⟩, fun _ => rfl⟩

theorem parse_anlys_time_mem (t : Table) (r : Row) (hr : r ∈ (parse_anlys_time t).rows) :
    ∃ r0 ∈ t.rows, NonAnlysEq r r0 ∧
      (t.schema.anlys_time = true → r.anlys_time = anlysNormalize r.anlys_time) := by
  unfold parse_anlys_time at hr
  split at hr
  · next h =>
    refine ⟨r, hr, ⟨rfl, rfl, rfl, rfl, rfl, rfl, rfl, rfl, rfl⟩, ?_⟩
    intro hc; rw [hc] at h; cases h
  · next h =>
    rcases List.mem_map.1 hr with ⟨r0, hr0, rfl⟩
    refine ⟨r0, hr0, ⟨rfl, rfl, rfl, rfl, rfl, rfl, rfl, rfl, rfl⟩, fun _ => ?_⟩
    show anlysNormalize r0.anlys_time = anlysNormalize (anlysNormalize r0.anlys_time)
    exact (anlysNormalize_idem r0.anlys_time).symm

theorem clean_elev_false_mem (s : ℚ) (np : Bool) (t : Table) (r : Row)
    (hr : r ∈ (clean_elevations_soft s np false t).rows) :
    ∃ r0 ∈ t.rows, NonElevEq r r0 ∧
      r.min_elev = (if t.schema.min_elev then coerceCell s np r0.min_elev else r0.min_elev) ∧
      r.mean_elev = (if t.schema.mean_elev then coerceCell s np r0.mean_elev else r0.mean_elev) ∧
      r.max_elev = (if t.schema.max_elev then coerceCell s np r0.max_elev else r0.max_elev) := by
  unfold clean_elevations_soft at hr
  split at hr
  · next h =>
    refine ⟨r, hr, ⟨rfl, rfl, rfl, rfl, rfl, rfl, rfl⟩, ?_, ?_, ?_⟩
    · rw [h.1]; simp
    · rw [h.2.1]; simp
    · rw [h.2.2]; simp
  · next h =>
    rcases List.mem_map.1 hr with ⟨r0, hr0, rfl⟩
    refine ⟨r0, hr0, ⟨rfl, rfl, rfl, rfl, rfl, rfl, rfl⟩, ?_, ?_, ?_⟩ <;>
      simp [elevRow]

theorem filter_positive_area_mem (t : Table) (r : Row)
    (hr : r ∈ (filter_positive_area t).rows) :
    r ∈ t.rows ∧ (t.schema.area = true → ∃ a, r.area = some a ∧ 0 < a) := by
  unfold filter_positive_area at hr
  split at hr
  · next h =>
    refine ⟨hr, ?_⟩
    intro hc; rw [hc] at h; cases h
  · next h =>
    simp only [List.mem_filter] at hr
    refine ⟨hr.1.1, fun _ => ?_⟩
    have hsome := hr.1.2
    have hpos := hr.2
    match ha : r.area with
    | none => rw [ha] at hsome; cases hsome
    | some a =>
      refine ⟨a, rfl, ?_⟩
      rw [ha] at hpos
      simpa using hpos

theorem drop_exact_dupes_mem (t : Table) (r : Row)
    (hr : r ∈ (drop_exact_dupes t).rows) : r ∈ t.rows := by
  unfold drop_exact_dupes at hr
  split at hr
  · exact dedupeKeyAux_subset _ _ _ hr
  · exact hr

theorem fixBody_mem (repair : Geom → Geom) (t : Table) (hg : t.schema.geometry = true)
    (r : Row) (hr : r ∈ (fixBody repair t).rows) :
    (∃ g0, r.geometry = some (repair g0) ∧ repair g0 ≠ Geom.emptyGeom) ∧
    ∃ r0 ∈ t.rows, r.line_type = r0.line_type := by
  unfold fixBody at hr
  obtain ⟨hmem, hgeo⟩ := drop_empty_geometries_mem _ r hr
  rcases List.mem_map.1 hmem with ⟨r0, hr0, rfl⟩
  obtain ⟨g, hgEq, hgne⟩ := hgeo hg
  have : ∃ g0, r0.geometry = some g0 ∧ repair g0 = g := by
    have : (r0.geometry.map repair) = some g := hgEq
    match h0 : r0.geometry with
    | none => rw [h0] at this; cases this
    | some g0 =>
      rw [h0] at this
      exact ⟨g0, rfl, by simpa using this⟩
  obtain ⟨g0, hg0, hrep⟩ := this
  refine ⟨⟨g0, ?_, ?_⟩, r0, hr0, rfl⟩
  · show r0.geometry.map repair = some (repair g0)
    rw [hg0]; rfl
  · rw [hrep]; exact hgne

theorem cleanTail_spec (repair : Geom → Geom) (t4 : Table)
    (hgeom : t4.schema.geometry = true)
    (hcrs : t4.crs.isSome = true)
    (h4rows : ∀ r ∈ t4.rows,
      (∃ g0, r.geometry = some (repair g0) ∧ repair g0 ≠ Geom.emptyGeom) ∧
      (t4.schema.line_type = true → r.line_type = some "glac_bound")) :
    CleanInv repair (cleanTail t4) := by
  have p5 := parse_src_date_schema_proj t4
  have p5dt := parse_src_date_schema_dt t4
  have e65 : (parse_anlys_time (parse_src_date t4)).schema = (parse_src_date t4).schema :=
    parse_anlys_time_schema _
  have e76 : (clean_elevations_soft (-9999) false false
      (parse_anlys_time (parse_src_date t4))).schema =
      (parse_anlys_time (parse_src_date t4)).schema :=
    clean_elevations_soft_schema _ _ _ _
  have e87 : (filter_positive_area (clean_elevations_soft (-9999) false false
      (parse_anlys_time (parse_src_date t4)))).schema =
      (clean_elevations_soft (-9999) false false
        (parse_anlys_time (parse_src_date t4))).schema :=
    filter_positive_area_schema _
  have pTail := cleanTail_schema_proj t4
  refine ⟨?_, ?_, ?_, ?_, ?_⟩
  · rw [pTail.2.2.1]; exact hgeom
  · intro h
    rw [pTail.2.2.2.2.2.2.2.2.2]
    rw [pTail.2.2.2.1] at h
    rw [h]
    rfl
  · rw [cleanTail_crs]; exact hcrs
  · intro r hr
    have hr8 := drop_exact_dupes_mem _ r hr
    obtain ⟨hr7, harea⟩ := filter_positive_area_mem _ r hr8
    obtain ⟨r6, hr6, hEl, hmin, hmean, hmax⟩ := clean_elev_false_mem (-9999) false _ r hr7
    obtain ⟨r5, hr5, hAn, hanlys6⟩ := parse_anlys_time_mem _ r6 hr6
    obtain ⟨r4, hr4, hDt, hsrc5⟩ := parse_src_date_mem t4 r5 hr5
    obtain ⟨hgeo4, hline4⟩ := h4rows r4 hr4
    obtain ⟨hElid, hElline, hElgeo, hElsrc, hEldt, hElan, hElarea⟩ := hEl
    obtain ⟨hAnid, hAnline, hAngeo, hAnsrc, hAndt, hAnarea, hAnmin, hAnmean, hAnmax⟩ := hAn
    obtain ⟨hDtid, hDtline, hDtgeo, hDtsrc, hDtan, hDtarea, hDtmin, hDtmean, hDtmax⟩ := hDt
    refine ⟨?_, ?_, ?_, ?_, ?_, ?_, ?_, ?_⟩
    · -- line type
      intro h
      rw [pTail.2.1] at h
      rw [hElline, hAnline, hDtline]
      exact hline4 h
    · -- geometry
      rw [hElgeo, hAngeo, hDtgeo]
      exact hgeo4
    · -- area
      intro h
      rw [pTail.2.2.2.2.2.1] at h
      apply harea
      rw [e76, e65, p5.2.2.2.2.2.1]
      exact h
    · -- src_date_dt fixed point
      intro h
      rw [pTail.2.2.2.1] at h
      rw [hEldt, hAndt, hElsrc, hAnsrc]
      exact hsrc5 h
    · -- anlys_time fixed point
      intro h
      rw [pTail.2.2.2.2.1] at h
      rw [hElan]
      apply hanlys6
      rw [p5.2.2.2.2.1]
      exact h
    · -- min_elev fixed point
      intro h
      rw [pTail.2.2.2.2.2.2.1] at h
      have hflag : (parse_anlys_time (parse_src_date t4)).schema.min_elev = true := by
        rw [e65, p5.2.2.2.2.2.2.1]; exact h
      rw [hflag] at hmin
      simp only [if_true] at hmin
      rw [hmin, coerceCell_idem]
    · -- mean_elev fixed point
      intro h
      rw [pTail.2.2.2.2.2.2.2.1] at h
      have hflag : (parse_anlys_time (parse_src_date t4)).schema.mean_elev = true := by
        rw [e65, p5.2.2.2.2.2.2.2.1]; exact h
      rw [hflag] at hmean
      simp only [if_true] at hmean
      rw [hmean, coerceCell_idem]
    · -- max_elev fixed point
      intro h
      rw [pTail.2.2.2.2.2.2.2.2.1] at h
      have hflag : (parse_anlys_time (parse_src_date t4)).schema.max_elev = true := by
        rw [e65, p5.2.2.2.2.2.2.2.2]; exact h
      rw [hflag] at hmax
      simp only [if_true] at hmax
      rw [hmax, coerceCell_idem]
  · -- dedup key nodup
    intro h
    rw [pTail.1] at h
    have hglac8 : (filter_positive_area (clean_elevations_soft (-9999) false false
        (parse_anlys_time (parse_src_date t4)))).schema.glac_id = true := by
      rw [e87, e76, e65, p5.1]; exact h
    have hgeom8 : (filter_positive_area (clean_elevations_soft (-9999) false false
        (parse_anlys_time (parse_src_date t4)))).schema.geometry = true := by
      rw [e87, e76, e65, p5.2.2.1]; exact hgeom
    have hrows : (cleanTail t4).rows = dedupeKey
        (dupeKey (filter_positive_area (clean_elevations_soft (-9999) false false
          (parse_anlys_time (parse_src_date t4)))).schema.src_date_dt)
        (filter_positive_area (clean_elevations_soft (-9999) false false
          (parse_anlys_time (parse_src_date t4)))).rows := by
      show (drop_exact_dupes _).rows = _
      unfold drop_exact_dupes cast_categories
      rw [hglac8, hgeom8]
      rfl
    have hdt : (cleanTail t4).schema.src_date_dt =
        (filter_positive_area (clean_elevations_soft (-9999) false false
          (parse_anlys_time (parse_src_date t4)))).schema.src_date_dt := by
      show (drop_exact_dupes _).schema.src_date_dt = _
      rw [drop_exact_dupes_schema]
      rfl
    rw [hrows, hdt]
    exact dedupeKey_key_nodup _ _

theorem clean_spec (repair : Geom → Geom) (t out : Table)
    (hok : clean_glims_outlines repair t = Except.ok out) :
    CleanInv repair out ∧
    out.schema.line_type = t.schema.line_type ∧
    out.schema.area = t.schema.area ∧
    out.schema.glac_id = t.schema.glac_id ∧
    out.schema.geometry = true := by
  rw [clean_glims_outlines_eq] at hok
  by_cases hg : t.schema.geometry = false
  · rw [if_pos hg] at hok; cases hok
  · rw [if_neg hg] at hok
    have hgt : t.schema.geometry = true := by
      revert hg; cases t.schema.geometry <;> simp
    injection hok with hout
    subst hout
    have hT3s : (ensure_crs 4326 (drop_empty_geometries (keep_outlines "glac_bound" t))).schema
        = t.schema := by
      rw [ensure_crs_schema, drop_empty_geometries_schema, keep_outlines_schema]
    have hT4s : (fixBody repair (ensure_crs 4326 (drop_empty_geometries
        (keep_outlines "glac_bound" t)))).schema = t.schema := by
      rw [fixBody_schema, hT3s]
    have hT4crs : (fixBody repair (ensure_crs 4326 (drop_empty_geometries
        (keep_outlines "glac_bound" t)))).crs.isSome = true := by
      rw [fixBody_crs]
      exact ensure_crs_isSome _ _
    have hT4rows : ∀ r ∈ (fixBody repair (ensure_crs 4326 (drop_empty_geometries
        (keep_outlines "glac_bound" t)))).rows,
        (∃ g0, r.geometry = some (repair g0) ∧ repair g0 ≠ Geom.emptyGeom) ∧
        ((fixBody repair (ensure_crs 4326 (drop_empty_geometries
          (keep_outlines "glac_bound" t)))).schema.line_type = true →
          r.line_type = some "glac_bound") := by
      intro r hr
      have hgT3 : (ensure_crs 4326 (drop_empty_geometries
          (keep_outlines "glac_bound" t))).schema.geometry = true := by
        rw [hT3s]; exact hgt
      obtain ⟨hgeo, r0, hr0, hline⟩ := fixBody_mem repair _ hgT3 r hr
      refine ⟨hgeo, ?_⟩
      intro h
      rw [hT4s] at h
      rw [ensure_crs_rows] at hr0
      obtain ⟨hr0d, _⟩ := drop_empty_geometries_mem _ r0 hr0
      obtain ⟨_, hlt⟩ := keep_outlines_mem _ _ r0 hr0d
      rw [hline]
      exact hlt h
    have hmain := cleanTail_spec repair _ (by rw [hT4s]; exact hgt) hT4crs hT4rows
    have pTail := cleanTail_schema_proj (fixBody repair (ensure_crs 4326
      (drop_empty_geometries (keep_outlines "glac_bound" t))))
    refine ⟨hmain, ?_, ?_, ?_, ?_⟩
    · rw [pTail.2.1, hT4s]
    · rw [pTail.2.2.2.2.2.1, hT4s]
    · rw [pTail.1, hT4s]
    · rw [pTail.2.2.1, hT4s]; exact hgt

theorem clean_fix_of_inv (repair : Geom → Geom) (out : Table)
    (hrep : ∀ g, repair (repair g) = repair g)
    (hinv : CleanInv repair out) :
    clean_glims_outlines repair out = Except.ok out := by
  obtain ⟨hgeom, hdtimp, hcrs, hrows, hnodup⟩ := hinv
  have hko : keep_outlines "glac_bound" out = out := by
    unfold keep_outlines
    by_cases h : out.schema.line_type = false
    · rw [if_pos h]
    · rw [if_neg h]
      have hl : out.schema.line_type = true := by
        revert h; cases out.schema.line_type <;> simp
      have hf : out.rows.filter (fun r => r.line_type == some "glac_bound") = out.rows := by
        apply List.filter_eq_self.mpr
        intro r hr
        rw [(hrows r hr).1 hl]
        simp
      rw [hf]
  have hdo : drop_empty_geometries out = out := by
    unfold drop_empty_geometries
    rw [if_neg (by rw [hgeom]; simp)]
    have h1 : out.rows.filter (fun r => r.geometry.isSome) = out.rows := by
      apply List.filter_eq_self.mpr
      intro r hr
      obtain ⟨g0, hg, _⟩ := (hrows r hr).2.1
      rw [hg]; rfl
    rw [h1]
    have h2 : out.rows.filter (fun r => !rowGeomEmpty r) = out.rows := by
      apply List.filter_eq_self.mpr
      intro r hr
      obtain ⟨g0, hg, hne⟩ := (hrows r hr).2.1
      unfold rowGeomEmpty
      rw [hg]
      match hrg : repair g0 with
      | Geom.emptyGeom => exact absurd hrg hne
      | Geom.poly c => rfl
    rw [h2]
  have hec : ensure_crs 4326 out = out := by
    unfold ensure_crs
    split
    · next hnone => rw [hnone] at hcrs; simp at hcrs
    · rfl
  have hfb : fixBody repair out = out := by
    unfold fixBody
    have hmap : out.rows.map (fun r => { r with geometry := r.geometry.map repair }) = out.rows := by
      apply map_eq_self_of
      intro r hr
      obtain ⟨g0, hg, _⟩ := (hrows r hr).2.1
      rw [hg]
      show { r with geometry := some (repair (repair g0)) } = r
      rw [hrep g0, ← hg]
    rw [hmap]
    exact hdo
  have hps : parse_src_date out = out := by
    unfold parse_src_date
    by_cases h : out.schema.src_date = false
    · rw [if_pos h]
    · rw [if_neg h]
      have hst : out.schema.src_date = true := by
        revert h; cases out.schema.src_date <;> simp
      have hs : { out.schema with src_date_dt := true } = out.schema := by
        conv_lhs => rw [← hdtimp hst]
      have hm : out.rows.map (fun r => { r with src_date_dt := parseDateCell r.src_date })
          = out.rows := by
        apply map_eq_self_of
        intro r hr
        rw [← (hrows r hr).2.2.2.1 hst]
      rw [hs, hm]
  have hpa : parse_anlys_time out = out := by
    unfold parse_anlys_time
    by_cases h : out.schema.anlys_time = false
    · rw [if_pos h]
    · rw [if_neg h]
      have hat : out.schema.anlys_time = true := by
        revert h; cases out.schema.anlys_time <;> simp
      have hm : out.rows.map (fun r => { r with anlys_time := anlysNormalize r.anlys_time })
          = out.rows := by
        apply map_eq_self_of
        intro r hr
        rw [← (hrows r hr).2.2.2.2.1 hat]
      rw [hm]
  have hel : clean_elevations_soft (-9999) false false out = out := by
    unfold clean_elevations_soft
    by_cases h : (out.schema.min_elev = false ∧ out.schema.mean_elev = false ∧
        out.schema.max_elev = false)
    · rw [if_pos h]
    · rw [if_neg h]
      have hm : out.rows.map (elevRow out.schema (-9999) false false) = out.rows := by
        apply map_eq_self_of
        intro r hr
        show elevRow out.schema (-9999) false false r = r
        unfold elevRow
        simp only [Bool.false_and, Bool.and_false, if_neg (by simp : ¬ (false = true))]
        have hm1 : (if out.schema.min_elev then coerceCell (-9999) false r.min_elev
            else r.min_elev) = r.min_elev := by
          by_cases hf : out.schema.min_elev = true
          · rw [hf, if_pos rfl]
            exact ((hrows r hr).2.2.2.2.2.1 hf).symm
          · have : out.schema.min_elev = false := by
              revert hf; cases out.schema.min_elev <;> simp
            rw [this]
            simp
        have hm2 : (if out.schema.mean_elev then coerceCell (-9999) false r.mean_elev
            else r.mean_elev) = r.mean_elev := by
          by_cases hf : out.schema.mean_elev = true
          · rw [hf, if_pos rfl]
            exact ((hrows r hr).2.2.2.2.2.2.1 hf).symm
          · have : out.schema.mean_elev = false := by
              revert hf; cases out.schema.mean_elev <;> simp
            rw [this]
            simp
        have hm3 : (if out.schema.max_elev then coerceCell (-9999) false r.max_elev
            else r.max_elev) = r.max_elev := by
          by_cases hf : out.schema.max_elev = true
          · rw [hf, if_pos rfl]
            exact ((hrows r hr).2.2.2.2.2.2.2 hf).symm
          · have : out.schema.max_elev = false := by
              revert hf; cases out.schema.max_elev <;> simp
            rw [this]
            simp
        rw [hm1, hm2, hm3]
      rw [hm]
  have hfa : filter_positive_area out = out := by
    unfold filter_positive_area
    by_cases h : out.schema.area = false
    · rw [if_pos h]
    · rw [if_neg h]
      have hat : out.schema.area = true := by
        revert h; cases out.schema.area <;> simp
      have h1 : out.rows.filter (fun r => r.area.isSome) = out.rows := by
        apply List.filter_eq_self.mpr
        intro r hr
        obtain ⟨a, ha, _⟩ := (hrows r hr).2.2.1 hat
        rw [ha]; rfl
      rw [h1]
      have h2 : out.rows.filter (fun r => decide (0 < r.area.getD 0)) = out.rows := by
        apply List.filter_eq_self.mpr
        intro r hr
        obtain ⟨a, ha, hpos⟩ := (hrows r hr).2.2.1 hat
        rw [ha]
        simpa using hpos
      rw [h2]
  have hdd : drop_exact_dupes out = out := by
    unfold drop_exact_dupes
    by_cases h : out.schema.glac_id = true
    · rw [h, hgeom]
      simp only [Bool.and_self, if_pos rfl]
      have : dedupeKey (dupeKey out.schema.src_date_dt) out.rows = out.rows :=
        dedupeKeyAux_eq_self _ _ [] (hnodup h) (by intro x _ hc; cases hc)
      rw [this]
      simp
    · have hfalse : out.schema.glac_id = false := by
        revert h; cases out.schema.glac_id <;> simp
      rw [hfalse]
      simp
  rw [clean_glims_outlines_eq]
  rw [if_neg (by rw [hgeom]; simp)]
  rw [hko, hdo, hec, hfb]
  unfold cleanTail cast_categories
  rw [hps, hpa, hel, hfa, hdd]

/- ------------------------------------------------------------------ -/
/- Claim C2                                                            -/
/- ------------------------------------------------------------------ -/

/-- C2: every row of the output of the full cleaning pipeline
(`clean_glims_outlines`) has `line_type = "glac_bound"` when that column
is present, a non-null and non-empty geometry, and a strictly positive
area when the area column is present; and the output table's coordinate
reference system is non-null. -/
theorem C2_clean_output_invariants (repair : Geom → Geom) (t out : Table)
    (hok : clean_glims_outlines repair t = Except.ok out) :
    (∀ r ∈ out.rows,
      (out.schema.line_type = true → r.line_type = some "glac_bound") ∧
      (∃ g, r.geometry = some g ∧ g ≠ Geom.emptyGeom) ∧
      (out.schema.area = true → ∃ a, r.area = some a ∧ 0 < a)) ∧
    out.crs.isSome = true := by
  obtain ⟨⟨_, _, hcrs, hrows, _⟩, _⟩ := clean_spec repair t out hok
  refine ⟨?_, hcrs⟩
  intro r hr
  obtain ⟨hl, ⟨g0, hgeq, hne⟩, ha, _⟩ := hrows r hr
  exact ⟨hl, ⟨repair g0, hgeq, hne⟩, ha⟩

/-- Witness for C2: the invariants hold on the cleaned output of a
concrete raw table with a non-outline row, an empty geometry, a
non-positive area, a duplicate, and no coordinate reference system. -/
theorem C2_clean_output_invariants_witness :
    (∀ r ∈ rawTableCleaned.rows,
      (rawTableCleaned.schema.line_type = true → r.line_type = some "glac_bound") ∧
      (∃ g, r.geometry = some g ∧ g ≠ Geom.emptyGeom) ∧
      (rawTableCleaned.schema.area = true → ∃ a, r.area = some a ∧ 0 < a)) ∧
    rawTableCleaned.crs.isSome = true :=
  C2_clean_output_invariants (fun g => g) rawTable rawTableCleaned (by rfl)

/- ------------------------------------------------------------------ -/
/- Claim C8                                                            -/
/- ------------------------------------------------------------------ -/

/-- C8: the cleaning pipeline is idempotent with respect to row count:
for every input table whose cleaning succeeds, cleaning the output again
succeeds and yields a table with the same number of rows (the geometry
repair is assumed idempotent, as `make_valid` and `buffer(0)` are on
their images). -/
theorem C8_clean_idempotent_rowcount (repair : Geom → Geom) (t out : Table)
    (hrep : ∀ g, repair (repair g) = repair g)
    (hok : clean_glims_outlines repair t = Except.ok out) :
    ∃ out2, clean_glims_outlines repair out = Except.ok out2 ∧
      out2.rows.length = out.rows.length := by
  obtain ⟨hinv, _⟩ := clean_spec repair t out hok
  exact ⟨out, clean_fix_of_inv repair out hrep hinv, rfl⟩

/-- Witness for C8 at a concrete cleaned table. -/
theorem C8_clean_idempotent_rowcount_witness :
    ∃ out2, clean_glims_outlines (fun g => g) cleanFixTable = Except.ok out2 ∧
      out2.rows.length = cleanFixTable.rows.length :=
  C8_clean_idempotent_rowcount (fun g => g) cleanFixTable cleanFixTable
    (fun _ => rfl) (by rfl)

/- ------------------------------------------------------------------ -/
/- Claim C6                                                            -/
/- ------------------------------------------------------------------ -/

/-- C6: `drop_exact_dupes` returns its input unchanged unless both the
identifier and geometry columns are present; otherwise it deduplicates on
the tuple (glac_id, src_date_dt when present, geometry encoding), keeping
the first occurrence in input order: the output is a sublist of the input,
any two distinct surviving rows differ in at least one tuple component,
every input tuple is represented, a row at a first occurrence of its tuple
survives, and every surviving row is a first occurrence of its tuple. -/
theorem C6_drop_exact_dupes_spec (t : Table) :
    (¬(t.schema.glac_id = true ∧ t.schema.geometry = true) → drop_exact_dupes t = t) ∧
    (t.schema.glac_id = true → t.schema.geometry = true →
      ((drop_exact_dupes t).rows.Sublist t.rows ∧
       ((drop_exact_dupes t).rows.map (dupeKey t.schema.src_date_dt)).Nodup ∧
       (∀ r ∈ t.rows, ∃ r2 ∈ (drop_exact_dupes t).rows,
         dupeKey t.schema.src_date_dt r2 = dupeKey t.schema.src_date_dt r) ∧
       (∀ l1 r l2, t.rows = l1 ++ r :: l2 →
         (∀ x ∈ l1, dupeKey t.schema.src_date_dt x ≠ dupeKey t.schema.src_date_dt r) →
         r ∈ (drop_exact_dupes t).rows) ∧
       (∀ r ∈ (drop_exact_dupes t).rows, ∃ l1 l2, t.rows = l1 ++ r :: l2 ∧
         ∀ x ∈ l1, dupeKey t.schema.src_date_dt x ≠ dupeKey t.schema.src_date_dt r))) := by
  constructor
  · intro h
    unfold drop_exact_dupes
    split
    · next hc => exact absurd (Bool.and_eq_true _ _ |>.mp hc) h
    · rfl
  · intro h1 h2
    have hrows : (drop_exact_dupes t).rows
        = dedupeKey (dupeKey t.schema.src_date_dt) t.rows := by
      unfold drop_exact_dupes
      rw [h1, h2]
      rfl
    refine ⟨?_, ?_, ?_, ?_, ?_⟩
    · rw [hrows]; exact dedupeKey_sublist _ _
    · rw [hrows]; exact dedupeKey_key_nodup _ _
    · intro r hr
      rcases dedupeKeyAux_covers (dupeKey t.schema.src_date_dt) t.rows [] r hr with hs | ⟨x, hx, hk⟩
      · cases hs
      · exact ⟨x, by rw [hrows]; exact hx, hk⟩
    · intro l1 r l2 hsplit hfirst
      rw [hrows, hsplit]
      exact dedupeKeyAux_mem_of_first _ l1 r l2 [] (by intro hc; cases hc) hfirst
    · intro r hr
      rw [hrows] at hr
      exact (dedupeKeyAux_first_of_mem _ t.rows [] r hr).2

/-- Witness for C6: the no-op branch on a table without an identifier
column, and the deduplication properties on a concrete table with an exact
duplicate. -/
theorem C6_drop_exact_dupes_spec_witness :
    drop_exact_dupes (noColTable { allColsSchema with glac_id := false })
      = noColTable { allColsSchema with glac_id := false } ∧
    ((drop_exact_dupes dupTable).rows.Sublist dupTable.rows ∧
     ((drop_exact_dupes dupTable).rows.map (dupeKey dupTable.schema.src_date_dt)).Nodup ∧
     (∀ r ∈ dupTable.rows, ∃ r2 ∈ (drop_exact_dupes dupTable).rows,
       dupeKey dupTable.schema.src_date_dt r2 = dupeKey dupTable.schema.src_date_dt r) ∧
     (∀ l1 r l2, dupTable.rows = l1 ++ r :: l2 →
       (∀ x ∈ l1, dupeKey dupTable.schema.src_date_dt x ≠ dupeKey dupTable.schema.src_date_dt r) →
       r ∈ (drop_exact_dupes dupTable).rows) ∧
     (∀ r ∈ (drop_exact_dupes dupTable).rows, ∃ l1 l2, dupTable.rows = l1 ++ r :: l2 ∧
       ∀ x ∈ l1, dupeKey dupTable.schema.src_date_dt x ≠ dupeKey dupTable.schema.src_date_dt r)) :=
  ⟨(C6_drop_exact_dupes_spec (noColTable { allColsSchema with glac_id := false })).1
      (by intro hc; exact Bool.noConfusion hc.1),
   (C6_drop_exact_dupes_spec dupTable).2 rfl rfl⟩

/- ------------------------------------------------------------------ -/
/- Claim C7                                                            -/
/- ------------------------------------------------------------------ -/

/-- C7 counterexample: `fix_invalid_geometries` is not defensive against a
missing geometry column — on a table without one it raises
(AttributeError from the unconditional `gdf.geometry` access, re-raised by
the fallback branch) instead of returning the table unchanged, so a step
other than `make_temporal_view` raises. -/
theorem C7_fix_raises_counterexample :
    fix_invalid_geometries (fun g => g) (noColTable { allColsSchema with geometry := false })
      = Except.error PipeError.attributeError ∧
    ∀ u, fix_invalid_geometries (fun g => g)
      (noColTable { allColsSchema with geometry := false }) ≠ Except.ok u :=
  ⟨rfl, fun _ h => Except.noConfusion h⟩

/-- C7 (amended): every cleaning/normalization step except
`fix_invalid_geometries` is defensive against missing columns (it returns
its input unchanged); `fix_invalid_geometries` raises whenever the
geometry column is absent; and `make_temporal_view` fails with its
explicit precondition ValueError whenever `src_date_dt` is absent, an
explicit ValueError arising only in that case. -/
theorem C7_missing_column_policy :
    (∀ v t, t.schema.line_type = false → keep_outlines v t = t) ∧
    (∀ t, t.schema.geometry = false → drop_empty_geometries t = t) ∧
    (∀ t, t.schema.src_date = false → parse_src_date t = t) ∧
    (∀ t, t.schema.anlys_time = false → parse_anlys_time t = t) ∧
    (∀ s np eo t, t.schema.min_elev = false → t.schema.mean_elev = false →
      t.schema.max_elev = false → clean_elevations_soft s np eo t = t) ∧
    (∀ t, t.schema.area = false → filter_positive_area t = t) ∧
    (∀ t, cast_categories t = t) ∧
    (∀ t, ¬(t.schema.glac_id = true ∧ t.schema.geometry = true) → drop_exact_dupes t = t) ∧
    (∀ repair t, t.schema.geometry = false →
      fix_invalid_geometries repair t = Except.error PipeError.attributeError) ∧
    (∀ unite minD maxD t, t.schema.src_date_dt = false →
      make_temporal_view unite minD maxD t = Except.error
        (PipeError.valueError "src_date_dt missing; call clean_glims_outlines first.")) ∧
    (∀ unite minD maxD t msg,
      make_temporal_view unite minD maxD t = Except.error (PipeError.valueError msg) →
      t.schema.src_date_dt = false) := by
  refine ⟨?_, ?_, ?_, ?_, ?_, ?_, ?_, ?_, ?_, ?_, ?_⟩
  · intro v t h; unfold keep_outlines; rw [if_pos h]
  · intro t h; unfold drop_empty_geometries; rw [if_pos h]
  · intro t h; unfold parse_src_date; rw [if_pos h]
  · intro t h; unfold parse_anlys_time; rw [if_pos h]
  · intro s np eo t h1 h2 h3
    unfold clean_elevations_soft
    rw [if_pos ⟨h1, h2, h3⟩]
  · intro t h; unfold filter_positive_area; rw [if_pos h]
  · intro t; rfl
  · intro t h
    unfold drop_exact_dupes
    split
    · next hc => exact absurd (Bool.and_eq_true _ _ |>.mp hc) h
    · rfl
  · intro repair t h
    rw [fix_invalid_geometries_eq, if_pos h]
  · intro unite minD maxD t h
    unfold make_temporal_view
    rw [if_pos h]
  · intro unite minD maxD t msg h
    unfold make_temporal_view at h
    by_cases hdt : t.schema.src_date_dt = false
    · exact hdt
    · exfalso
      rw [if_neg hdt] at h
      by_cases hid : t.schema.glac_id = false
      · rw [if_pos hid] at h; cases h
      · rw [if_neg hid] at h
        by_cases hgeo : t.schema.geometry = false
        · rw [if_pos hgeo] at h; cases h
        · rw [if_neg hgeo] at h
          by_cases har : t.schema.area = false
          · rw [if_pos har] at h; cases h
          · rw [if_neg har] at h; cases h

/-- Witness for C7 (amended): each defensive step at a concrete table
missing its column, the `fix_invalid_geometries` failure, and the
`make_temporal_view` precondition error. -/
theorem C7_missing_column_policy_witness :
    keep_outlines "glac_bound" (noColTable { allColsSchema with line_type := false })
      = noColTable { allColsSchema with line_type := false } ∧
    drop_empty_geometries (noColTable { allColsSchema with geometry := false })
      = noColTable { allColsSchema with geometry := false } ∧
    parse_src_date (noColTable { allColsSchema with src_date := false })
      = noColTable { allColsSchema with src_date := false } ∧
    parse_anlys_time (noColTable { allColsSchema with anlys_time := false })
      = noColTable { allColsSchema with anlys_time := false } ∧
    clean_elevations_soft (-9999) false true
      (noColTable { allColsSchema with min_elev := false, mean_elev := false, max_elev := false })
      = noColTable { allColsSchema with min_elev := false, mean_elev := false, max_elev := false } ∧
    filter_positive_area (noColTable { allColsSchema with area := false })
      = noColTable { allColsSchema with area := false } ∧
    drop_exact_dupes (noColTable { allColsSchema with geometry := false })
      = noColTable { allColsSchema with geometry := false } ∧
    fix_invalid_geometries (fun g => g) (noColTable { allColsSchema with geometry := false })
      = Except.error PipeError.attributeError ∧
    make_temporal_view (fun _ => Geom.emptyGeom) ⟨1900, 1⟩ ⟨2026, 365⟩
      (noColTable { allColsSchema with src_date_dt := false })
      = Except.error
        (PipeError.valueError "src_date_dt missing; call clean_glims_outlines first.") :=
  ⟨C7_missing_column_policy.1 "glac_bound" _ rfl,
   C7_missing_column_policy.2.1 _ rfl,
   C7_missing_column_policy.2.2.1 _ rfl,
   C7_missing_column_policy.2.2.2.1 _ rfl,
   C7_missing_column_policy.2.2.2.2.1 (-9999) false true _ rfl rfl rfl,
   C7_missing_column_policy.2.2.2.2.2.1 _ rfl,
   C7_missing_column_policy.2.2.2.2.2.2.2.1 _ (by intro hc; exact Bool.noConfusion hc.2),
   C7_missing_column_policy.2.2.2.2.2.2.2.2.1 (fun g => g) _ rfl,
   C7_missing_column_policy.2.2.2.2.2.2.2.2.2.1 (fun _ => Geom.emptyGeom) ⟨1900, 1⟩ ⟨2026, 365⟩ _ rfl⟩

/- ------------------------------------------------------------------ -/
/- Temporal-view lemmas                                                -/
/- ------------------------------------------------------------------ -/

theorem rowKeyOpt_eq_some (r : Row) (g : String) (d : Timestamp) :
    rowKeyOpt r = some (g, d) ↔ r.glac_id = some g ∧ r.src_date_dt = some d := by
  cases hg : r.glac_id <;> cases hd : r.src_date_dt <;> simp [rowKeyOpt, hg, hd]

theorem mem_keptRows (minD maxD : Timestamp) (t : Table) (r : Row) :
    r ∈ keptRows minD maxD t ↔
      r ∈ t.rows ∧ (r.glac_id.isSome && r.src_date_dt.isSome) = true ∧
        inWindow minD maxD r = true := by
  unfold keptRows
  simp only [List.mem_filter]
  tauto

theorem inWindow_of_some (minD maxD : Timestamp) (r : Row) (d : Timestamp)
    (h : r.src_date_dt = some d) :
    inWindow minD maxD r = (tsLE minD d && tsLE d maxD) := by
  unfold inWindow
  rw [h]

theorem make_temporal_view_ok (unite : List Geom → Geom) (minD maxD : Timestamp)
    (t : Table) (h1 : t.schema.src_date_dt = true) (h2 : t.schema.glac_id = true)
    (h3 : t.schema.geometry = true) (h4 : t.schema.area = true) :
    make_temporal_view unite minD maxD t = Except.ok
    ((isort keyLE (dedupeKey id ((keptRows minD maxD t).filterMap rowKeyOpt))).map
      (tvRow unite minD maxD t)) := by
  unfold make_temporal_view
  rw [if_neg (by rw [h1]; simp), if_neg (by rw [h2]; simp), if_neg (by rw [h3]; simp),
    if_neg (by rw [h4]; simp)]

theorem tv_keys_mem (minD maxD : Timestamp) (t : Table) (g : String) (d : Timestamp) :
    ((g, d) ∈ isort keyLE (dedupeKey id ((keptRows minD maxD t).filterMap rowKeyOpt))) ↔
      ∃ r ∈ t.rows, r.glac_id = some g ∧ r.src_date_dt = some d ∧
        (tsLE minD d && tsLE d maxD) = true := by
  rw [mem_isort, mem_dedupeKey_id, List.mem_filterMap]
  constructor
  · rintro ⟨r, hr, hk⟩
    rw [rowKeyOpt_eq_some] at hk
    obtain ⟨hmem, _, hw⟩ := (mem_keptRows minD maxD t r).1 hr
    refine ⟨r, hmem, hk.1, hk.2, ?_⟩
    rw [inWindow_of_some minD maxD r d hk.2] at hw
    exact hw
  · rintro ⟨r, hr, hg, hd, hw⟩
    refine ⟨r, ?_, (rowKeyOpt_eq_some r g d).2 ⟨hg, hd⟩⟩
    apply (mem_keptRows minD maxD t r).2
    refine ⟨hr, ?_, ?_⟩
    · rw [hg, hd]; rfl
    · rw [inWindow_of_some minD maxD r d hd]; exact hw

theorem tv_map_key (unite : List Geom → Geom) (minD maxD : Timestamp) (t : Table)
    (keys : List (String × Timestamp)) :
    (keys.map (tvRow unite minD maxD t)).map (fun r => (r.glac_id, r.src_date_dt)) = keys := by
  rw [List.map_map]
  have h : ((fun r : TRow => (r.glac_id, r.src_date_dt)) ∘ tvRow unite minD maxD t) = id :=
    funext fun k => rfl
  rw [h, List.map_id]

/- ------------------------------------------------------------------ -/
/- Claim C3                                                            -/
/- ------------------------------------------------------------------ -/

/-- C3: the temporal view has exactly one row per (glac_id, src_date_dt)
pair; a pair appears exactly when some input row carries it with a
non-missing identifier and date inside the inclusive window; and each
output row's area is the median of the areas of all input rows sharing
that exact pair. -/
theorem C3_temporal_view_law (unite : List Geom → Geom) (minD maxD : Timestamp) (t : Table)
    (h1 : t.schema.src_date_dt = true) (h2 : t.schema.glac_id = true)
    (h3 : t.schema.geometry = true) (h4 : t.schema.area = true) :
    ∃ tv, make_temporal_view unite minD maxD t = Except.ok tv ∧
      (tv.map fun r => (r.glac_id, r.src_date_dt)).Nodup ∧
      (∀ tr ∈ tv, tr.area = median ((t.rows.filter fun r =>
        rowKeyOpt r == some (tr.glac_id, tr.src_date_dt)).filterMap fun r => r.area)) ∧
      (∀ g d, ((g, d) ∈ tv.map fun r => (r.glac_id, r.src_date_dt)) ↔
        ∃ r ∈ t.rows, r.glac_id = some g ∧ r.src_date_dt = some d ∧
          (tsLE minD d && tsLE d maxD) = true) := by
  refine ⟨_, make_temporal_view_ok unite minD maxD t h1 h2 h3 h4, ?_, ?_, ?_⟩
  · rw [tv_map_key]
    exact ((isort_perm _ _).nodup_iff).2 (nodup_dedupeKey_id _)
  · intro tr htr
    rcases List.mem_map.1 htr with ⟨k, hk, rfl⟩
    obtain ⟨r0, hr0, hg0, hd0, hw0⟩ := (tv_keys_mem minD maxD t k.1 k.2).1 hk
    have hfe : (keptRows minD maxD t).filter (fun r => rowKeyOpt r == some k)
        = t.rows.filter (fun r => rowKeyOpt r == some k) := by
      unfold keptRows
      rw [List.filter_filter, List.filter_filter]
      apply List.filter_congr
      intro r _
      by_cases hp : rowKeyOpt r = some k
      · have hps : (rowKeyOpt r == some k) = true := beq_iff_eq.2 hp
        have hp2 := (rowKeyOpt_eq_some r k.1 k.2).1 hp
        have hw : inWindow minD maxD r = true := by
          rw [inWindow_of_some minD maxD r k.2 hp2.2]
          exact hw0
        have hs : (r.glac_id.isSome && r.src_date_dt.isSome) = true := by
          rw [hp2.1, hp2.2]; rfl
        rw [hps, hw, hs]
        rfl
      · have hps : (rowKeyOpt r == some k) = false := by
          rw [beq_eq_false_iff_ne]
          exact hp
        rw [hps]
        simp
    show median (((keptRows minD maxD t).filter
        (fun r => rowKeyOpt r == some k)).filterMap fun r => r.area) = _
    rw [hfe]
    rfl
  · intro g d
    rw [tv_map_key]
    exact tv_keys_mem minD maxD t g d

/-- Witness for C3 at a concrete cleaned table with a duplicated pair, a
missing identifier and an out-of-window date. -/
theorem C3_temporal_view_law_witness :
    ∃ tv, make_temporal_view (fun _ => Geom.emptyGeom) ⟨1900, 1⟩ ⟨2026, 365⟩ c3Table
        = Except.ok tv ∧
      (tv.map fun r => (r.glac_id, r.src_date_dt)).Nodup ∧
      (∀ tr ∈ tv, tr.area = median ((c3Table.rows.filter fun r =>
        rowKeyOpt r == some (tr.glac_id, tr.src_date_dt)).filterMap fun r => r.area)) ∧
      (∀ g d, ((g, d) ∈ tv.map fun r => (r.glac_id, r.src_date_dt)) ↔
        ∃ r ∈ c3Table.rows, r.glac_id = some g ∧ r.src_date_dt = some d ∧
          (tsLE ⟨1900, 1⟩ d && tsLE d ⟨2026, 365⟩) = true) :=
  C3_temporal_view_law (fun _ => Geom.emptyGeom) ⟨1900, 1⟩ ⟨2026, 365⟩ c3Table
    rfl rfl rfl rfl

/- ------------------------------------------------------------------ -/
/- Claim C5                                                            -/
/- ------------------------------------------------------------------ -/

theorem prediction_filter_eq (tv : List TRow) (k : Nat) :
    (tv.filter fun r => ((dedupeKey id (tv.map fun r => r.glac_id)).filter fun g =>
        decide (k ≤ distinctDateCount tv g)).contains r.glac_id)
      = tv.filter fun r => decide (k ≤ distinctDateCount tv r.glac_id) := by
  apply List.filter_congr
  intro r hr
  by_cases hc : k ≤ distinctDateCount tv r.glac_id
  · have hmem : r.glac_id ∈ (dedupeKey id (tv.map fun r => r.glac_id)).filter
        (fun g => decide (k ≤ distinctDateCount tv g)) := by
      rw [List.mem_filter]
      exact ⟨(mem_dedupeKey_id _ _).2 (List.mem_map_of_mem _ hr), by simpa using hc⟩
    rw [decide_eq_true hc]
    simp [List.elem_iff, hmem]
  · have hmem : r.glac_id ∉ (dedupeKey id (tv.map fun r => r.glac_id)).filter
        (fun g => decide (k ≤ distinctDateCount tv g)) := by
      rw [List.mem_filter]
      rintro ⟨-, hdec⟩
      exact hc (by simpa using hdec)
    rw [decide_eq_false hc]
    simp [List.elem_iff, hmem]

theorem prediction_membership (tv : List TRow) (k : Nat) (hk : 1 ≤ k) (g : String) :
    (∃ r ∈ tv.filter (fun r => decide (k ≤ distinctDateCount tv r.glac_id)), r.glac_id = g)
      ↔ k ≤ distinctDateCount tv g := by
  constructor
  · rintro ⟨r, hr, rfl⟩
    rw [List.mem_filter] at hr
    simpa using hr.2
  · intro hcount
    have hex : ∃ r ∈ tv, r.glac_id = g := by
      by_contra hno
      push_neg at hno
      have hfil : tv.filter (fun r => r.glac_id == g) = [] := by
        apply List.filter_eq_nil_iff.2
        intro r hr
        simp [hno r hr]
      have hzero : distinctDateCount tv g = 0 := by
        unfold distinctDateCount
        rw [hfil]
        rfl
      omega
    obtain ⟨r, hr, hg⟩ := hex
    refine ⟨r, ?_, hg⟩
    rw [List.mem_filter]
    refine ⟨hr, ?_⟩
    rw [hg]
    simpa using hcount

/-- C5: for a cleaned table and a minimum observation count of at least
one, the prediction view consists exactly of the temporal-view rows whose
identifier has at least k distinct observation dates in the temporal view,
and an identifier appears in the prediction view if and only if its
distinct observation-date count in the temporal view is at least k. -/
theorem C5_prediction_view_membership (unite : List Geom → Geom) (k : Nat)
    (minD maxD : Timestamp) (t : Table)
    (h1 : t.schema.src_date_dt = true) (h2 : t.schema.glac_id = true)
    (h3 : t.schema.geometry = true) (h4 : t.schema.area = true) (hk : 1 ≤ k) :
    ∃ tv, make_temporal_view unite minD maxD t = Except.ok tv ∧
      make_prediction_view unite k minD maxD t
        = Except.ok (tv.filter fun r => decide (k ≤ distinctDateCount tv r.glac_id)) ∧
      ∀ g, (∃ r ∈ tv.filter (fun r => decide (k ≤ distinctDateCount tv r.glac_id)),
        r.glac_id = g) ↔ k ≤ distinctDateCount tv g := by
  refine ⟨_, make_temporal_view_ok unite minD maxD t h1 h2 h3 h4, ?_, ?_⟩
  · unfold make_prediction_view
    rw [make_temporal_view_ok unite minD maxD t h1 h2 h3 h4]
    exact congrArg Except.ok (prediction_filter_eq _ k)
  · intro g
    exact prediction_membership _ k hk g

/-- Witness for C5: with the default minimum of three, identifier "H"
(three distinct dates) qualifies and identifier "G" (two) does not. -/
theorem C5_prediction_view_membership_witness :
    ∃ tv, make_temporal_view (fun _ => Geom.emptyGeom) ⟨1900, 1⟩ ⟨2026, 365⟩ c5Table
        = Except.ok tv ∧
      make_prediction_view (fun _ => Geom.emptyGeom) 3 ⟨1900, 1⟩ ⟨2026, 365⟩ c5Table
        = Except.ok (tv.filter fun r => decide (3 ≤ distinctDateCount tv r.glac_id)) ∧
      ∀ g, (∃ r ∈ tv.filter (fun r => decide (3 ≤ distinctDateCount tv r.glac_id)),
        r.glac_id = g) ↔ 3 ≤ distinctDateCount tv g :=
  C5_prediction_view_membership (fun _ => Geom.emptyGeom) 3 ⟨1900, 1⟩ ⟨2026, 365⟩ c5Table
    rfl rfl rfl rfl (by omega)

/- ------------------------------------------------------------------ -/
/- Claim C9                                                            -/
/- ------------------------------------------------------------------ -/

/-- C9: with order enforcement enabled and all three elevation columns
present, `clean_elevations_soft` keeps every row (the output is the
row-wise image of the input); a row whose three elevations are present
after coercion and sentinel replacement with min > mean or mean > max has
all three set to missing (the rest of the row untouched); a row with at
least one elevation missing after coercion is left untouched by the
ordering rule (its elevations are exactly the coerced values). -/
theorem C9_enforce_order (sentinel : ℚ) (np : Bool) (t : Table)
    (hmin : t.schema.min_elev = true) (hmean : t.schema.mean_elev = true)
    (hmax : t.schema.max_elev = true) :
    (clean_elevations_soft sentinel np true t).rows
      = t.rows.map (elevRow t.schema sentinel np true) ∧
    ∀ r ∈ t.rows,
      (∀ a b c, cellVal (coerceCell sentinel np r.min_elev) = some a →
        cellVal (coerceCell sentinel np r.mean_elev) = some b →
        cellVal (coerceCell sentinel np r.max_elev) = some c →
        (b < a ∨ c < b) →
        elevRow t.schema sentinel np true r =
          { r with min_elev := none, mean_elev := none, max_elev := none }) ∧
      ((cellVal (coerceCell sentinel np r.min_elev) = none ∨
        cellVal (coerceCell sentinel np r.mean_elev) = none ∨
        cellVal (coerceCell sentinel np r.max_elev) = none) →
        elevRow t.schema sentinel np true r =
          { r with min_elev := coerceCell sentinel np r.min_elev,
                   mean_elev := coerceCell sentinel np r.mean_elev,
                   max_elev := coerceCell sentinel np r.max_elev }) := by
  constructor
  · unfold clean_elevations_soft
    rw [if_neg]
    intro hc
    rw [hmin] at hc
    exact Bool.noConfusion hc.1
  · intro r _
    constructor
    · intro a b c ha hb hc hbad
      unfold elevRow
      rw [hmin, hmean, hmax]
      simp only [if_true]
      have hbadB : elevBad (coerceCell sentinel np r.min_elev)
          (coerceCell sentinel np r.mean_elev) (coerceCell sentinel np r.max_elev) = true := by
        unfold elevBad
        rw [ha, hb, hc]
        show (!(qle a b && qle b c)) = true
        have : (qle a b && qle b c) = false := by
          rcases hbad with h | h
          · have hq : qle a b = false := by
              unfold qle
              exact decide_eq_false (not_le.mpr h)
            rw [hq, Bool.false_and]
          · have hq : qle b c = false := by
              unfold qle
              exact decide_eq_false (not_le.mpr h)
            rw [hq, Bool.and_false]
        rw [this]
        rfl
      rw [hbadB]
      rfl
    · intro hnone
      unfold elevRow
      rw [hmin, hmean, hmax]
      simp only [if_true]
      have hbadB : elevBad (coerceCell sentinel np r.min_elev)
          (coerceCell sentinel np r.mean_elev) (coerceCell sentinel np r.max_elev) = false := by
        unfold elevBad
        rcases h1 : cellVal (coerceCell sentinel np r.min_elev) with _ | a
        · rfl
        · rcases h2 : cellVal (coerceCell sentinel np r.mean_elev) with _ | b
          · rfl
          · rcases h3 : cellVal (coerceCell sentinel np r.max_elev) with _ | c
            · rfl
            · exfalso
              rcases hnone with h | h | h
              · rw [h1] at h; cases h
              · rw [h2] at h; cases h
              · rw [h3] at h; cases h
      rw [hbadB]
      rfl

/-- Witness for C9: on a concrete table, the out-of-order row is blanked
and the row with a missing elevation is left untouched by the rule. -/
theorem C9_enforce_order_witness :
    (clean_elevations_soft (-9999) false true elevTable).rows
      = elevTable.rows.map (elevRow elevTable.schema (-9999) false true) ∧
    elevRow elevTable.schema (-9999) false true elevRowBad =
      { elevRowBad with min_elev := none, mean_elev := none, max_elev := none } ∧
    elevRow elevTable.schema (-9999) false true elevRowMissing =
      { elevRowMissing with
        min_elev := coerceCell (-9999) false elevRowMissing.min_elev,
        mean_elev := coerceCell (-9999) false elevRowMissing.mean_elev,
        max_elev := coerceCell (-9999) false elevRowMissing.max_elev } :=
  ⟨(C9_enforce_order (-9999) false elevTable rfl rfl rfl).1,
   ((C9_enforce_order (-9999) false elevTable rfl rfl rfl).2 elevRowBad
      (List.mem_cons_self _ _)).1 20 10 30 rfl rfl rfl (Or.inl (by norm_num)),
   ((C9_enforce_order (-9999) false elevTable rfl rfl rfl).2 elevRowMissing
      (by simp [elevTable])).2 (Or.inl rfl)⟩

/- ------------------------------------------------------------------ -/
/- Claim C10                                                           -/
/- ------------------------------------------------------------------ -/

/-- C10: `make_prediction_view` has the same precondition as
`make_temporal_view`: called on a table lacking the `src_date_dt` column
it fails with the same explicit precondition error, because it builds the
temporal view first. -/
theorem C10_prediction_view_precondition (unite : List Geom → Geom) (k : Nat)
    (minD maxD : Timestamp) (t : Table) (h : t.schema.src_date_dt = false) :
    make_prediction_view unite k minD maxD t = Except.error
      (PipeError.valueError "src_date_dt missing; call clean_glims_outlines first.") ∧
    make_prediction_view unite k minD maxD t = make_temporal_view unite minD maxD t := by
  have hmtv : make_temporal_view unite minD maxD t = Except.error
      (PipeError.valueError "src_date_dt missing; call clean_glims_outlines first.") := by
    unfold make_temporal_view
    rw [if_pos h]
  constructor
  · unfold make_prediction_view
    rw [hmtv]
  · unfold make_prediction_view
    rw [hmtv]

/-- Witness for C10 at a concrete table without `src_date_dt`. -/
theorem C10_prediction_view_precondition_witness :
    make_prediction_view (fun _ => Geom.emptyGeom) 3 ⟨1900, 1⟩ ⟨2026, 365⟩
      (noColTable { allColsSchema with src_date_dt := false }) = Except.error
      (PipeError.valueError "src_date_dt missing; call clean_glims_outlines first.") ∧
    make_prediction_view (fun _ => Geom.emptyGeom) 3 ⟨1900, 1⟩ ⟨2026, 365⟩
      (noColTable { allColsSchema with src_date_dt := false })
      = make_temporal_view (fun _ => Geom.emptyGeom) ⟨1900, 1⟩ ⟨2026, 365⟩
        (noColTable { allColsSchema with src_date_dt := false }) :=
  C10_prediction_view_precondition (fun _ => Geom.emptyGeom) 3 ⟨1900, 1⟩ ⟨2026, 365⟩
    (noColTable { allColsSchema with src_date_dt := false }) rfl

/- ------------------------------------------------------------------ -/
/- Feature-extraction lemmas                                           -/
/- ------------------------------------------------------------------ -/

theorem featFor_gid (g : String) (grp : List HRow) (t0 : Timestamp) :
    (featFor g grp t0).glac_id = g := by
  simp only [featFor]
  split <;> rfl

theorem featFor_date (g : String) (grp : List HRow) (t0 : Timestamp) :
    (featFor g grp t0).src_date_dt = t0 := by
  simp only [featFor]
  split <;> rfl

theorem toH_gid (r : FRow) (h : HRow) (he : toH r = some h) : r.glac_id = some h.gid := by
  unfold toH at he
  rcases hg : r.glac_id with _ | a
  · rw [hg] at he; exact Option.noConfusion he
  · rcases hd : r.src_date_dt with _ | d
    · rw [hg, hd] at he; exact Option.noConfusion he
    · rw [hg, hd] at he
      injection he with he2
      rw [← he2]

/- ------------------------------------------------------------------ -/
/- Claim C1                                                            -/
/- ------------------------------------------------------------------ -/

set_option maxHeartbeats 4000000 in
/-- Evaluation of feature extraction at the spec's scenario.  Rational
arithmetic is normalized by `norm_num` (kernel reduction cannot evaluate
`Rat` normalization, which runs `Nat.gcd`). -/
theorem c1_features_eval :
    add_glims_history_features c1Hist c1Tgt =
      [{ glac_id := "G1", src_date_dt := ⟨2012, 1⟩, n_past := 3,
         span_years_past := some 10, area_trend_per_year := some (-1 / 2),
         area_last := some 95, delta_area_last := some 5 }] := by
  norm_num [add_glims_history_features, toH, isort, insertSorted, hrowLE, tsLE, tsLT,
    dedupeKey, dedupeKeyAux, featFor, fracYear, listMax, listMin, optSub, olsSlope,
    max_def, min_def, List.filterMap_cons, List.zip, List.zipWith, List.all]

/-- C1 counterexample: the exact ordinary-least-squares slope of areas
[100, 90, 95] against years [2000, 2005, 2010] is -1/2, and the pipeline's
`area_trend_per_year` at the spec's scenario is exactly -1/2 — not
approximately -1.0 as the spec asserts. -/
theorem C1_trend_counterexample :
    olsSlope [((2000 : ℚ), (100 : ℚ)), (2005, 90), (2010, 95)] = some (-1 / 2) ∧
    (add_glims_history_features c1Hist c1Tgt).map (fun fr => fr.area_trend_per_year)
      = [some (-1 / 2)] ∧
    ¬((-1 / 2 : ℚ) = -1) := by
  refine ⟨by norm_num [olsSlope], ?_, by norm_num⟩
  rw [c1_features_eval]
  rfl

/-- C1 (amended): at the spec's scenario — history areas [100, 90, 95] at
2000-01-01, 2005-01-01, 2010-01-01 and a target in 2012 — the feature
extraction yields n_past = 3, area_last = 95, delta_area_last = 5,
span_years_past = 10.0, and area_trend_per_year equal to the exact
ordinary-least-squares slope of the past areas against their fractional
years, which is exactly -1/2 (the spec's "approximately -1.0" is wrong). -/
theorem C1_feature_scenario :
    add_glims_history_features c1Hist c1Tgt =
      [{ glac_id := "G1", src_date_dt := ⟨2012, 1⟩, n_past := 3,
         span_years_past := some 10, area_trend_per_year := some (-1 / 2),
         area_last := some 95, delta_area_last := some 5 }] ∧
    olsSlope ((c1Hist.filterMap toH).map fun h => (fracYear h.date, h.area.getD 0))
      = some (-1 / 2) := by
  refine ⟨c1_features_eval, ?_⟩
  norm_num [olsSlope, toH, c1Hist, fracYear, List.filterMap_cons, List.zip, List.zipWith]

/- ------------------------------------------------------------------ -/
/- Claim C4                                                            -/
/- ------------------------------------------------------------------ -/

/-- C4: a target identifier absent from the history produces no feature
rows at all, whereas a target pair whose identifier exists in the history
but has no history row strictly before the target date produces exactly
one row with n_past = 0 and every other feature field missing. -/
theorem C4_absent_vs_no_past (temporal_all temporal_targets : List FRow) (gid : String) :
    ((∀ r ∈ temporal_all, r.glac_id ≠ some gid) →
      ∀ fr ∈ add_glims_history_features temporal_all temporal_targets, fr.glac_id ≠ gid) ∧
    (∀ t0 : Timestamp,
      (∃ h ∈ temporal_all.filterMap toH, h.gid = gid) →
      (∀ h ∈ temporal_all.filterMap toH, h.gid = gid → tsLT h.date t0 = false) →
      ((temporal_targets.filterMap toH).filter
        (fun h => h.gid == gid && h.date == t0)).length = 1 →
      (add_glims_history_features temporal_all temporal_targets).filter
        (fun fr => fr.glac_id == gid && fr.src_date_dt == t0)
        = [{ glac_id := gid, src_date_dt := t0, n_past := 0, span_years_past := none,
             area_trend_per_year := none, area_last := none, delta_area_last := none }]) := by
  constructor
  · intro hno fr hfr
    simp only [add_glims_history_features] at hfr
    rcases List.mem_flatMap.1 hfr with ⟨g, hgmem, hblock⟩
    rcases List.mem_map.1 hblock with ⟨tr, _, rfl⟩
    rw [featFor_gid]
    intro hEq
    subst hEq
    have hg2 := (mem_dedupeKey_id _ _).1 hgmem
    rcases List.mem_map.1 hg2 with ⟨h, hh, hgid⟩
    rw [mem_isort] at hh
    rcases List.mem_filterMap.1 hh with ⟨r, hrmem, hr⟩
    exact hno r hrmem (by rw [toH_gid r h hr, hgid])
  · intro t0 hex hnopast hcount
    simp only [add_glims_history_features]
    rw [filter_flatMap]
    have hnodup := nodup_dedupeKey_id
      ((isort hrowLE (temporal_all.filterMap toH)).map fun r => r.gid)
    have hgid_mem : gid ∈ dedupeKey id
        ((isort hrowLE (temporal_all.filterMap toH)).map fun r => r.gid) := by
      obtain ⟨h, hh, hgid⟩ := hex
      exact (mem_dedupeKey_id _ _).2 (List.mem_map.2 ⟨h, (mem_isort _ _ h).2 hh, hgid⟩)
    have hother : ∀ x ∈ dedupeKey id
        ((isort hrowLE (temporal_all.filterMap toH)).map fun r => r.gid), x ≠ gid →
        (((isort hrowLE (temporal_targets.filterMap toH)).filter fun r => r.gid == x).map
          (fun tr => featFor x
            ((isort hrowLE (temporal_all.filterMap toH)).filter fun r => r.gid == x)
            tr.date)).filter
          (fun fr => fr.glac_id == gid && fr.src_date_dt == t0) = [] := by
      intro x _ hxne
      apply List.filter_eq_nil_iff.2
      intro fr hfr
      rcases List.mem_map.1 hfr with ⟨tr, _, rfl⟩
      intro hp
      rw [Bool.and_eq_true, featFor_gid] at hp
      exact hxne (beq_iff_eq.1 hp.1)
    rw [flatMap_single _ _ gid hnodup hgid_mem hother]
    rw [filter_of_map]
    have hpredEq : ((isort hrowLE (temporal_targets.filterMap toH)).filter
        fun r => r.gid == gid).filter
          (fun tr => ((featFor gid
            ((isort hrowLE (temporal_all.filterMap toH)).filter fun r => r.gid == gid)
            tr.date).glac_id == gid &&
          (featFor gid
            ((isort hrowLE (temporal_all.filterMap toH)).filter fun r => r.gid == gid)
            tr.date).src_date_dt == t0))
        = ((isort hrowLE (temporal_targets.filterMap toH)).filter
          fun r => r.gid == gid).filter (fun tr => tr.date == t0) := by
      apply List.filter_congr
      intro tr _
      rw [featFor_gid, featFor_date]
      simp
    rw [hpredEq, List.filter_filter]
    have hcomm : (isort hrowLE (temporal_targets.filterMap toH)).filter
        (fun a => (a.date == t0) && (a.gid == gid))
        = (isort hrowLE (temporal_targets.filterMap toH)).filter
          (fun a => (a.gid == gid) && (a.date == t0)) :=
      List.filter_congr (fun x _ => Bool.and_comm _ _)
    rw [hcomm]
    have hlen : ((isort hrowLE (temporal_targets.filterMap toH)).filter
        (fun a => (a.gid == gid) && (a.date == t0))).length = 1 := by
      rw [((isort_perm hrowLE (temporal_targets.filterMap toH)).filter _).length_eq]
      exact hcount
    obtain ⟨x, hx⟩ := List.length_eq_one.mp hlen
    have hxmem : x ∈ (isort hrowLE (temporal_targets.filterMap toH)).filter
        (fun a => (a.gid == gid) && (a.date == t0)) := by
      rw [hx]
      exact List.mem_cons_self _ _
    rw [List.mem_filter, Bool.and_eq_true] at hxmem
    have hxd : x.date = t0 := beq_iff_eq.1 hxmem.2.2
    rw [hx]
    show [featFor gid ((isort hrowLE (temporal_all.filterMap toH)).filter
      fun r => r.gid == gid) x.date] = _
    rw [hxd]
    have hpast : ((isort hrowLE (temporal_all.filterMap toH)).filter
        fun r => r.gid == gid).filter (fun r => tsLT r.date t0) = [] := by
      apply List.filter_eq_nil_iff.2
      intro h hh
      rw [List.mem_filter] at hh
      have hmem : h ∈ temporal_all.filterMap toH := (mem_isort _ _ h).1 hh.1
      have hgid : h.gid = gid := beq_iff_eq.1 hh.2
      rw [hnopast h hmem hgid]
      simp
    simp [featFor, hpast]

/-- Witness for C4: in the concrete scenario, target identifier "G3"
(absent from history) produces no rows, and the ("G2", 2000) target —
earlier than all of "G2"'s history — produces exactly the one
missing-filled row. -/
theorem C4_absent_vs_no_past_witness :
    (∀ fr ∈ add_glims_history_features c4Hist c4Tgt, fr.glac_id ≠ "G3") ∧
    (add_glims_history_features c4Hist c4Tgt).filter
      (fun fr => fr.glac_id == "G2" && fr.src_date_dt == (⟨2000, 1⟩ : Timestamp))
      = [{ glac_id := "G2", src_date_dt := ⟨2000, 1⟩, n_past := 0, span_years_past := none,
           area_trend_per_year := none, area_last := none, delta_area_last := none }] :=
  ⟨(C4_absent_vs_no_past c4Hist c4Tgt "G3").1 (by decide),
   (C4_absent_vs_no_past c4Hist c4Tgt "G2").2 ⟨2000, 1⟩ (by decide) (by decide) (by decide)⟩

end Glims
